import Mathlib

/-!
CameraSync, `Trigger.cpp`.

A shallow embedding of `src/Trigger.cpp`.  The program is a client of a camera
SDK; the SDK objects it touches are modelled as plain data:

* a node map is a finite store from node names to nodes; a node carries the
  access flags the program tests (`IsAvailable`, `IsReadable`, `IsWritable`),
  a flag telling whether a write to it throws `Spinnaker::Exception`, and a
  typed payload;
* a write through a node pointer changes the named node only and leaves the
  store untouched when it throws;
* calls whose effect is outside the node map (acquisition, images, console)
  are recorded in an event trace.

Floating point values are taken over `ℚ`.
-/

namespace CameraSync

/-! ## Node maps -/

/-- An entry of an enumeration node (`CEnumEntryPtr`). -/
structure EnumEntry where
  available : Bool
  readable : Bool
  value : Int
deriving DecidableEq, Repr

/-- Typed payload of a node. -/
inductive NodeKind where
  | enumeration (entries : List (String × EnumEntry)) (intValue : Int)
  | boolean (value : Bool)
  | float (value : ℚ) (max : ℚ)
  | string (value : String)
  | command (executions : Nat)
deriving DecidableEq

/-- A feature node of a node map. -/
structure Node where
  available : Bool
  readable : Bool
  writable : Bool
  /-- a write to (or execution of) this node throws `Spinnaker::Exception` -/
  writeThrows : Bool
  kind : NodeKind
deriving DecidableEq

/-- The store behind `INodeMap`: `GetNode name` is the null pointer (`none`)
when no node has that name. -/
structure INodeMap where
  GetNode : String → Option Node

/-- Replace the node stored under `name`. -/
def INodeMap.set (nodeMap : INodeMap) (name : String) (node : Node) : INodeMap :=
  ⟨fun k => if k = name then some node else nodeMap.GetNode k⟩

/-- The call `CEnumerationPtr p = nodeMap.GetNode(name)`: null unless the node is an enumeration. -/
def INodeMap.GetEnumeration (nodeMap : INodeMap) (name : String) : Option Node :=
  match nodeMap.GetNode name with
  | some node =>
    match node.kind with
    | .enumeration _ _ => some node
    | _ => none
  | none => none

/-- The call `CBooleanPtr p = nodeMap.GetNode(name)`. -/
def INodeMap.GetBoolean (nodeMap : INodeMap) (name : String) : Option Node :=
  match nodeMap.GetNode name with
  | some node =>
    match node.kind with
    | .boolean _ => some node
    | _ => none
  | none => none

/-- The call `CFloatPtr p = nodeMap.GetNode(name)`. -/
def INodeMap.GetFloat (nodeMap : INodeMap) (name : String) : Option Node :=
  match nodeMap.GetNode name with
  | some node =>
    match node.kind with
    | .float _ _ => some node
    | _ => none
  | none => none

/-- The call `CStringPtr p = nodeMap.GetNode(name)`. -/
def INodeMap.GetString (nodeMap : INodeMap) (name : String) : Option Node :=
  match nodeMap.GetNode name with
  | some node =>
    match node.kind with
    | .string _ => some node
    | _ => none
  | none => none

/-- The call `CCommandPtr p = nodeMap.GetNode(name)`. -/
def INodeMap.GetCommand (nodeMap : INodeMap) (name : String) : Option Node :=
  match nodeMap.GetNode name with
  | some node =>
    match node.kind with
    | .command _ => some node
    | _ => none
  | none => none

/-- The call `IsAvailable(ptr)`; false on the null pointer. -/
def IsAvailable (ptr : Option Node) : Bool :=
  match ptr with
  | some node => node.available
  | none => false

/-- The call `IsReadable(ptr)`; false on the null pointer. -/
def IsReadable (ptr : Option Node) : Bool :=
  match ptr with
  | some node => node.readable
  | none => false

/-- The call `IsWritable(ptr)`; false on the null pointer. -/
def IsWritable (ptr : Option Node) : Bool :=
  match ptr with
  | some node => node.writable
  | none => false

/-- The call `IsAvailable(entry)` for an enumeration entry pointer. -/
def EntryIsAvailable (ptr : Option EnumEntry) : Bool :=
  match ptr with
  | some e => e.available
  | none => false

/-- The call `IsReadable(entry)` for an enumeration entry pointer. -/
def EntryIsReadable (ptr : Option EnumEntry) : Bool :=
  match ptr with
  | some e => e.readable
  | none => false

/-- The call `ptr->GetEntryByName(name)`; null when there is no such entry. -/
def GetEntryByName (ptr : Option Node) (name : String) : Option EnumEntry :=
  match ptr with
  | some node =>
    match node.kind with
    | .enumeration entries _ => entries.lookup name
    | _ => none
  | none => none

/-- The call `ptr->SetIntValue(v)` on the enumeration node called `name`:
`none` when the call throws. -/
def SetIntValue (nodeMap : INodeMap) (name : String) (v : Int) : Option INodeMap :=
  match nodeMap.GetNode name with
  | some node =>
    if node.writeThrows then none
    else
      match node.kind with
      | .enumeration entries _ =>
        some (nodeMap.set name { node with kind := .enumeration entries v })
      | _ => none
  | none => none

/-- The call `ptr->SetValue(b)` on the boolean node called `name`. -/
def SetBoolValue (nodeMap : INodeMap) (name : String) (b : Bool) : Option INodeMap :=
  match nodeMap.GetNode name with
  | some node =>
    if node.writeThrows then none
    else
      match node.kind with
      | .boolean _ => some (nodeMap.set name { node with kind := .boolean b })
      | _ => none
  | none => none

/-- The call `ptr->SetValue(x)` on the float node called `name`. -/
def SetFloatValue (nodeMap : INodeMap) (name : String) (x : ℚ) : Option INodeMap :=
  match nodeMap.GetNode name with
  | some node =>
    if node.writeThrows then none
    else
      match node.kind with
      | .float _ m => some (nodeMap.set name { node with kind := .float x m })
      | _ => none
  | none => none

/-- The call `ptr->GetMax()` of a float node. -/
def GetMax (ptr : Option Node) : ℚ :=
  match ptr with
  | some node =>
    match node.kind with
    | .float _ m => m
    | _ => 0
  | none => 0

/-- The call `ptr->GetValue()` of a string node. -/
def GetStringValue (ptr : Option Node) : String :=
  match ptr with
  | some node =>
    match node.kind with
    | .string s => s
    | _ => ""
  | none => ""

/-! ## Trigger selection -/

inductive triggerType where
  | SOFTWARE
  | HARDWARE
deriving DecidableEq, Repr

/-- The global constant `chosenTrigger` (line 50). -/
def chosenTrigger : triggerType := .SOFTWARE

/-- Lines 100-105: the serial number string compared at line 106; the empty
string when the node is not available or not readable. -/
def deviceSerialNumber (nodeMap : INodeMap) : String :=
  let ptrStringSerial := nodeMap.GetString "DeviceSerialNumber"
  if IsAvailable ptrStringSerial && IsReadable ptrStringSerial then
    GetStringValue ptrStringSerial
  else ""

/-- Lines 269-275: the exposure time written, given the node's maximum. -/
def exposureTimeToSet (exposureTimeMax : ℚ) : ℚ :=
  if (4000 : ℚ) > exposureTimeMax then exposureTimeMax else 4000

/-- The statement `ptr->SetIntValue(ptrEntry->GetValue())` on the enumeration
node called `name`; `none` when it throws. -/
def writeEntry (nodeMap : INodeMap) (name : String) (ptrEntry : Option EnumEntry) :
    Option INodeMap :=
  match ptrEntry with
  | some e => SetIntValue nodeMap name e.value
  | none => none

/-- Lines 115-147 and 207-239: select the trigger source.  `swEntry` is the
entry name fetched under `SOFTWARE`: `"Software"` at line 125, `"Line3"` at
line 217.  `none` stands for leaving `ConfigureTrigger` with -1 (a failed
guard, or an exception caught at line 304) before any further write. -/
def selectTriggerSource (trig : triggerType) (swEntry : String) (nodeMap : INodeMap) :
    Option INodeMap :=
  let ptrTriggerSource := nodeMap.GetEnumeration "TriggerSource"
  if !IsAvailable ptrTriggerSource || !IsWritable ptrTriggerSource then none
  else
    match trig with
    | .SOFTWARE =>
      let ptrTriggerSourceSoftware := GetEntryByName ptrTriggerSource swEntry
      if !EntryIsAvailable ptrTriggerSourceSoftware || !EntryIsReadable ptrTriggerSourceSoftware then
        none
      else writeEntry nodeMap "TriggerSource" ptrTriggerSourceSoftware
    | .HARDWARE =>
      let ptrTriggerSourceHardware := GetEntryByName ptrTriggerSource "Line0"
      if !EntryIsAvailable ptrTriggerSourceHardware || !EntryIsReadable ptrTriggerSourceHardware then
        none
      else writeEntry nodeMap "TriggerSource" ptrTriggerSourceHardware

/-- Lines 107-197: the branch taken when the serial number is `"16276718"`. -/
def configurePrimary (trig : triggerType) (nodeMap : INodeMap) : Int × INodeMap :=
  match selectTriggerSource trig "Software" nodeMap with
  | none => (-1, nodeMap)
  | some nodeMap1 =>
    let ptrLineSelector := nodeMap1.GetEnumeration "LineSelector"
    if !IsAvailable ptrLineSelector || !IsReadable ptrLineSelector then (-1, nodeMap1)
    else
      let ptrLineSelector2 := GetEntryByName ptrLineSelector "Line2"
      if !EntryIsAvailable ptrLineSelector2 || !EntryIsReadable ptrLineSelector2 then (-1, nodeMap1)
      else
        match writeEntry nodeMap1 "LineSelector" ptrLineSelector2 with
        | none => (-1, nodeMap1)
        | some nodeMap2 =>
          let ptr33V := nodeMap2.GetBoolean "V3_3Enable"
          if !IsAvailable ptr33V || !IsReadable ptr33V then (-1, nodeMap2)
          else
            match SetBoolValue nodeMap2 "V3_3Enable" true with
            | none => (-1, nodeMap2)
            | some nodeMap3 => (0, nodeMap3)

/-- Lines 198-301: the branch taken for every other serial number. -/
def configureSecondary (trig : triggerType) (nodeMap : INodeMap) : Int × INodeMap :=
  match selectTriggerSource trig "Line3" nodeMap with
  | none => (-1, nodeMap)
  | some nodeMap1 =>
    let ptrTriggerOverlap := nodeMap1.GetEnumeration "TriggerOverlap"
    if !IsAvailable ptrTriggerOverlap || !IsReadable ptrTriggerOverlap then (-1, nodeMap1)
    else
      let ptrTriggerOverlapRO := GetEntryByName ptrTriggerOverlap "ReadOut"
      if !EntryIsAvailable ptrTriggerOverlapRO || !EntryIsReadable ptrTriggerOverlapRO then
        (-1, nodeMap1)
      else
        match writeEntry nodeMap1 "TriggerOverlap" ptrTriggerOverlapRO with
        | none => (-1, nodeMap1)
        | some nodeMap2 =>
          let ptrExposureTime := nodeMap2.GetFloat "ExposureTime"
          if !IsAvailable ptrExposureTime || !IsWritable ptrExposureTime then (-1, nodeMap2)
          else
            let exposureTimeMax := GetMax ptrExposureTime
            match SetFloatValue nodeMap2 "ExposureTime" (exposureTimeToSet exposureTimeMax) with
            | none => (-1, nodeMap2)
            | some nodeMap3 =>
              -- `ptrTriggerMode` is the pointer fetched at line 79
              let ptrTriggerModeOn := GetEntryByName (nodeMap3.GetEnumeration "TriggerMode") "On"
              if !EntryIsAvailable ptrTriggerModeOn || !EntryIsReadable ptrTriggerModeOn then
                (-1, nodeMap3)
              else
                match writeEntry nodeMap3 "TriggerMode" ptrTriggerModeOn with
                | none => (-1, nodeMap3)
                | some nodeMap4 => (0, nodeMap4)

/-- The function `ConfigureTrigger(nodeMap)` (lines 55-313): the returned `int` and the node
map afterwards.  `trig` is the value of the global `chosenTrigger`. -/
def ConfigureTrigger (trig : triggerType) (nodeMap : INodeMap) : Int × INodeMap :=
  let ptrTriggerMode := nodeMap.GetEnumeration "TriggerMode"
  if !IsAvailable ptrTriggerMode || !IsReadable ptrTriggerMode then (-1, nodeMap)
  else
    let ptrTriggerModeOff := GetEntryByName ptrTriggerMode "Off"
    if !EntryIsAvailable ptrTriggerModeOff || !EntryIsReadable ptrTriggerModeOff then (-1, nodeMap)
    else
      match writeEntry nodeMap "TriggerMode" ptrTriggerModeOff with
      | none => (-1, nodeMap)
      | some nodeMap1 =>
        if deviceSerialNumber nodeMap1 = "16276718" then configurePrimary trig nodeMap1
        else configureSecondary trig nodeMap1

/-! ## Cameras and traces -/

/-- What the vendor calls made on a retrieved image do. -/
structure Image where
  incomplete : Bool
  convertThrows : Bool
  saveThrows : Bool
  releaseThrows : Bool
deriving DecidableEq

/-- A camera: its two node maps and the outcome of the vendor calls made on it.
`nextImage k` is what `GetNextImage()` yields in round `k` of the image loop
(`none` when the call throws). -/
structure Camera where
  nodeMap : INodeMap
  tlDeviceNodeMap : INodeMap
  initThrows : Bool
  beginThrows : Bool
  endThrows : Bool
  deInitThrows : Bool
  nextImage : Nat → Option Image

/-- A `CameraList`; `GetByIndex(i)` is the `i`-th element. -/
abbrev CameraList := List Camera

/-- Calls recorded in the trace; `cam` is the index in the camera list. -/
inductive Event where
  | getchar
  | Init (cam : Nat)
  | BeginAcquisition (cam : Nat)
  | GetNextImage (cam : Nat) (imageCnt : Nat)
  | Convert (cam : Nat) (imageCnt : Nat)
  | Save (cam : Nat) (imageCnt : Nat) (filename : String)
  | Release (cam : Nat) (imageCnt : Nat)
  | EndAcquisition (cam : Nat)
  | DeInit (cam : Nat)
deriving DecidableEq

/-! ## `GrabNextImageByTrigger` -/

/-- The call `ptr->Execute()` on the command node called `name`; `none` when it throws. -/
def Execute (nodeMap : INodeMap) (name : String) : Option INodeMap :=
  match nodeMap.GetNode name with
  | some node =>
    if node.writeThrows then none
    else
      match node.kind with
      | .command n => some (nodeMap.set name { node with kind := .command (n + 1) })
      | _ => none
  | none => none

/-- How many times the command node `name` has been executed. -/
def executions (nodeMap : INodeMap) (name : String) : Nat :=
  match nodeMap.GetNode name with
  | some node =>
    match node.kind with
    | .command n => n
    | _ => 0
  | none => 0

/-- The function `GrabNextImageByTrigger(nodeMap, pCam)` (lines 322-377): the returned
`int`, the node map afterwards and the console reads made.  `trig` is the
value of the global `chosenTrigger`; `pCam` is not used by the body. -/
def GrabNextImageByTrigger (trig : triggerType) (nodeMap : INodeMap) :
    Int × INodeMap × List Event :=
  match trig with
  | .SOFTWARE =>
    let ptrSoftwareTriggerCommand := nodeMap.GetCommand "TriggerSoftware"
    if !IsAvailable ptrSoftwareTriggerCommand || !IsWritable ptrSoftwareTriggerCommand then
      (-1, nodeMap, [.getchar])
    else
      match Execute nodeMap "TriggerSoftware" with
      | none => (-1, nodeMap, [.getchar])
      | some nodeMap1 => (0, nodeMap1, [.getchar])
  | .HARDWARE => (0, nodeMap, [])

/-! ## `ResetTrigger` -/

/-- The function `ResetTrigger(camList)` (lines 380-424): the returned `int` and the cameras
afterwards.  The loop `for (i = 0; i < camList.GetSize(); i++)` visits the
cameras in list order and touches camera `i` only, so it is written as a
recursion on the list; leaving the loop early (a failed guard, or an exception
caught at line 417) returns -1 with the remaining cameras untouched. -/
def ResetTrigger : CameraList → Int × CameraList
  | [] => (0, [])
  | pCam :: rest =>
    let nodeMap := pCam.nodeMap
    let ptrTriggerMode := nodeMap.GetEnumeration "TriggerMode"
    if !IsAvailable ptrTriggerMode || !IsReadable ptrTriggerMode then (-1, pCam :: rest)
    else
      let ptrTriggerModeOff := GetEntryByName ptrTriggerMode "Off"
      if !EntryIsAvailable ptrTriggerModeOff || !EntryIsReadable ptrTriggerModeOff then
        (-1, pCam :: rest)
      else
        match writeEntry nodeMap "TriggerMode" ptrTriggerModeOff with
        | none => (-1, pCam :: rest)
        | some nodeMap1 =>
          ((ResetTrigger rest).1, { pCam with nodeMap := nodeMap1 } :: (ResetTrigger rest).2)

/-! ## `AcquireImages` -/

/-- Lines 572-604, one round of the preparation loop for camera `i`: whether
the round completed, the camera afterwards, the serial number stored in
`strSerialNumbers[i]`, and the calls made.  A round that does not complete
makes `AcquireImages` return -1. -/
def prepareCamera (i : Nat) (pCam : Camera) : Bool × Camera × String × List Event :=
  let ptrAcquisitionMode := pCam.nodeMap.GetEnumeration "AcquisitionMode"
  if !IsAvailable ptrAcquisitionMode || !IsWritable ptrAcquisitionMode then
    (false, pCam, "", [])
  else
    let ptrAcquisitionModeContinuous := GetEntryByName ptrAcquisitionMode "Continuous"
    if !EntryIsAvailable ptrAcquisitionModeContinuous ||
        !EntryIsReadable ptrAcquisitionModeContinuous then
      (false, pCam, "", [])
    else
      match writeEntry pCam.nodeMap "AcquisitionMode" ptrAcquisitionModeContinuous with
      | none => (false, pCam, "", [])
      | some nodeMap1 =>
        let pCam1 := { pCam with nodeMap := nodeMap1 }
        if pCam.beginThrows then (false, pCam1, "", [.BeginAcquisition i])
        else (true, pCam1, deviceSerialNumber pCam.tlDeviceNodeMap, [.BeginAcquisition i])

/-- Lines 570-605: the preparation loop from camera `i` on. -/
def prepareCameras : Nat → CameraList → Bool × CameraList × List String × List Event
  | _, [] => (true, [], [], [])
  | i, pCam :: rest =>
    let r := prepareCamera i pCam
    if r.1 then
      let rs := prepareCameras (i + 1) rest
      (rs.1, r.2.1 :: rs.2.1, r.2.2.1 :: rs.2.2.1, r.2.2.2 ++ rs.2.2.2)
    else (false, r.2.1 :: rest, [], r.2.2.2)

/-- Lines 659-669: the name of the file image `imageCnt` of camera `i` is saved to. -/
def filename (strSerialNumbers : List String) (i imageCnt : Nat) : String :=
  "AcquisitionMultipleCamera-" ++
    (if strSerialNumbers.getD i "" ≠ "" then strSerialNumbers.getD i "" else toString i) ++
    "-" ++ toString imageCnt ++ ".jpg"

/-- Lines 635-684, the body of the inner loop for camera `i` in round
`imageCnt`: whether an exception was caught at line 680, and the calls made. -/
def grabImage (strSerialNumbers : List String) (imageCnt i : Nat) (pCam : Camera) :
    Bool × List Event :=
  match pCam.nextImage imageCnt with
  | none => (true, [.GetNextImage i imageCnt])
  | some pResultImage =>
    if pResultImage.incomplete then
      if pResultImage.releaseThrows then
        (true, [.GetNextImage i imageCnt, .Release i imageCnt])
      else (false, [.GetNextImage i imageCnt, .Release i imageCnt])
    else if pResultImage.convertThrows then
      (true, [.GetNextImage i imageCnt, .Convert i imageCnt])
    else if pResultImage.saveThrows then
      (true, [.GetNextImage i imageCnt, .Convert i imageCnt,
        .Save i imageCnt (filename strSerialNumbers i imageCnt)])
    else if pResultImage.releaseThrows then
      (true, [.GetNextImage i imageCnt, .Convert i imageCnt,
        .Save i imageCnt (filename strSerialNumbers i imageCnt), .Release i imageCnt])
    else
      (false, [.GetNextImage i imageCnt, .Convert i imageCnt,
        .Save i imageCnt (filename strSerialNumbers i imageCnt), .Release i imageCnt])

/-- Lines 632-685: the inner loop of round `imageCnt` from camera `i` on,
threading `result`. -/
def grabCameras (strSerialNumbers : List String) (imageCnt : Nat) :
    Nat → CameraList → Int → Int × List Event
  | _, [], result => (result, [])
  | i, pCam :: rest, result =>
    let r := grabImage strSerialNumbers imageCnt i pCam
    let rs := grabCameras strSerialNumbers imageCnt (i + 1) rest (if r.1 then -1 else result)
    (rs.1, r.2 ++ rs.2)

/-- The constant `k_numImages` (line 616). -/
def k_numImages : Nat := 10

/-- Lines 618-686: the rounds `imageCnt, imageCnt + 1, ...` of the outer loop,
`remaining` of them, threading `result`. -/
def grabImages (strSerialNumbers : List String) (camList : CameraList) :
    Nat → Nat → Int → Int × List Event
  | 0, _, result => (result, [])
  | remaining + 1, imageCnt, result =>
    let r := grabCameras strSerialNumbers imageCnt 0 camList result
    let rs := grabImages strSerialNumbers camList remaining (imageCnt + 1) r.1
    (rs.1, Event.getchar :: (r.2 ++ rs.2))

/-- Lines 700-704: the loop ending acquisition from camera `i` on: whether it
completed and the calls made. -/
def endAcquisitions : Nat → CameraList → Bool × List Event
  | _, [] => (true, [])
  | i, pCam :: rest =>
    if pCam.endThrows then (false, [.EndAcquisition i])
    else ((endAcquisitions (i + 1) rest).1, .EndAcquisition i :: (endAcquisitions (i + 1) rest).2)

/-- The function `AcquireImages(camList)` (lines 545-713): the returned `int`, the cameras
afterwards and the calls made. -/
def AcquireImages (camList : CameraList) : Int × CameraList × List Event :=
  let prep := prepareCameras 0 camList
  if prep.1 then
    let grab := grabImages prep.2.2.1 prep.2.1 k_numImages 0 0
    let fin := endAcquisitions 0 prep.2.1
    if fin.1 then (grab.1, prep.2.1, prep.2.2.2 ++ grab.2 ++ fin.2)
    else (-1, prep.2.1, prep.2.2.2 ++ grab.2 ++ fin.2)
  else (-1, prep.2.1, prep.2.2.2)

/-! ## `RunMultipleCameras` and `main` -/

/-- The function `PrintDeviceInfo(nodeMap, camNum)` (lines 472-501) prints and returns 0. -/
def PrintDeviceInfo (_nodeMap : INodeMap) (_camNum : Nat) : Int := 0

/-- Lines 883-904: initialise and configure the cameras from camera `i` on:
`none` when the loop completes, `some err` when `RunMultipleCameras` returns
`err` from inside it. -/
def initCameras : Nat → CameraList → Option Int × CameraList × List Event
  | _, [] => (none, [], [])
  | i, pCam :: rest =>
    if pCam.initThrows then (some (-1), pCam :: rest, [.Init i])
    else
      let r := ConfigureTrigger chosenTrigger pCam.nodeMap
      if r.1 < 0 then (some r.1, { pCam with nodeMap := r.2 } :: rest, [.Init i])
      else
        let rs := initCameras (i + 1) rest
        (rs.1, { pCam with nodeMap := r.2 } :: rs.2.1, .Init i :: rs.2.2)

/-- Lines 925-931: deinitialise the cameras from camera `i` on. -/
def deInitCameras : Nat → CameraList → Bool × List Event
  | _, [] => (true, [])
  | i, pCam :: rest =>
    if pCam.deInitThrows then (false, [.DeInit i])
    else ((deInitCameras (i + 1) rest).1, .DeInit i :: (deInitCameras (i + 1) rest).2)

/-- The function `RunMultipleCameras(camList)` (lines 864-940). -/
def RunMultipleCameras (camList : CameraList) : Int × CameraList × List Event :=
  let ini := initCameras 0 camList
  match ini.1 with
  | some err => (err, ini.2.1, ini.2.2)
  | none =>
    -- `result` starts at 0 and the loop assigns it the value of `PrintDeviceInfo`
    let result : Int :=
      match camList.getLast? with
      | some pCam => PrintDeviceInfo pCam.tlDeviceNodeMap (camList.length - 1)
      | none => 0
    let acq := AcquireImages ini.2.1
    let result := Int.lor result acq.1
    let rst := ResetTrigger acq.2.1
    let result := Int.lor result rst.1
    let fin := deInitCameras 0 rst.2
    if fin.1 then (result, rst.2, ini.2.2 ++ acq.2.2 ++ fin.2)
    else (-1, rst.2, ini.2.2 ++ acq.2.2 ++ fin.2)

/-- What `main` finds: whether `fopen("test.txt", "w+")` succeeds, and the
cameras `system->GetCameras()` reports. -/
structure Env where
  fopenOk : Bool
  cameras : CameraList

/-- Calls made by `main` itself; `RunMultipleCameras` carries the trace of
the call. -/
inductive MainEvent where
  | fopen
  | fclose
  | remove
  | getchar
  | GetInstance
  | GetCameras
  | RunMultipleCameras (trace : List Event)
  | Clear
  | ReleaseInstance
deriving DecidableEq

/-- The function `main` (lines 945-1016): the returned `int` and the calls made. -/
def main (env : Env) : Int × List MainEvent :=
  if !env.fopenOk then (-1, [.fopen, .getchar])
  else
    let camList := env.cameras
    let numCameras := camList.length
    if numCameras == 0 then
      (-1, [.fopen, .fclose, .remove, .GetInstance, .GetCameras, .Clear, .ReleaseInstance,
        .getchar])
    else
      let run := RunMultipleCameras camList
      (run.1, [.fopen, .fclose, .remove, .GetInstance, .GetCameras,
        .RunMultipleCameras run.2.2, .Clear, .ReleaseInstance, .getchar])

/-! ## Reading the outcome -/

/-- The enumeration node `name` currently holds the value of its entry `entry`. -/
def enumIsEntry (nodeMap : INodeMap) (name entry : String) : Bool :=
  match nodeMap.GetNode name with
  | some node =>
    match node.kind with
    | .enumeration entries v =>
      match entries.lookup entry with
      | some e => v == e.value
      | none => false
    | _ => false
  | none => false

/-- The boolean node `name` currently holds `b`. -/
def boolIs (nodeMap : INodeMap) (name : String) (b : Bool) : Bool :=
  match nodeMap.GetNode name with
  | some node =>
    match node.kind with
    | .boolean v => v == b
    | _ => false
  | none => false

/-- The float node `name` currently holds `x`. -/
def floatIs (nodeMap : INodeMap) (name : String) (x : ℚ) : Bool :=
  match nodeMap.GetNode name with
  | some node =>
    match node.kind with
    | .float v _ => v == x
    | _ => false
  | none => false

/-- A write through `ptr` does not throw. -/
def acceptsWrite (ptr : Option Node) : Bool :=
  match ptr with
  | some node => !node.writeThrows
  | none => false

/-- An enumeration node that passes `IsAvailable` and the given access test,
has entry `entry` available and readable, and accepts writes. -/
def enumReady (nodeMap : INodeMap) (access : Option Node → Bool) (name entry : String) : Bool :=
  let ptr := nodeMap.GetEnumeration name
  IsAvailable ptr && access ptr &&
  EntryIsAvailable (GetEntryByName ptr entry) && EntryIsReadable (GetEntryByName ptr entry) &&
  acceptsWrite ptr

/-- The boolean node `name` is available and readable, and accepts writes. -/
def boolReady (nodeMap : INodeMap) (name : String) : Bool :=
  let ptr := nodeMap.GetBoolean name
  IsAvailable ptr && IsReadable ptr && acceptsWrite ptr

/-- The float node `name` is available and writable, and accepts writes. -/
def floatReady (nodeMap : INodeMap) (name : String) : Bool :=
  let ptr := nodeMap.GetFloat name
  IsAvailable ptr && IsWritable ptr && acceptsWrite ptr

/-- The entry of `TriggerSource` fetched for `trig` in the primary branch. -/
def primarySourceEntry (trig : triggerType) : String :=
  match trig with
  | .SOFTWARE => "Software"
  | .HARDWARE => "Line0"

/-- The entry of `TriggerSource` fetched for `trig` in the other branch. -/
def secondarySourceEntry (trig : triggerType) : String :=
  match trig with
  | .SOFTWARE => "Line3"
  | .HARDWARE => "Line0"

/-- Every guard on the primary path passes and no write on it throws. -/
def primaryReady (trig : triggerType) (nodeMap : INodeMap) : Bool :=
  enumReady nodeMap IsReadable "TriggerMode" "Off" &&
  enumReady nodeMap IsWritable "TriggerSource" (primarySourceEntry trig) &&
  enumReady nodeMap IsReadable "LineSelector" "Line2" &&
  boolReady nodeMap "V3_3Enable"

/-- Every guard on the non-primary path passes and no write on it throws. -/
def secondaryReady (trig : triggerType) (nodeMap : INodeMap) : Bool :=
  enumReady nodeMap IsReadable "TriggerMode" "Off" &&
  EntryIsAvailable (GetEntryByName (nodeMap.GetEnumeration "TriggerMode") "On") &&
  EntryIsReadable (GetEntryByName (nodeMap.GetEnumeration "TriggerMode") "On") &&
  enumReady nodeMap IsWritable "TriggerSource" (secondarySourceEntry trig) &&
  enumReady nodeMap IsReadable "TriggerOverlap" "ReadOut" &&
  floatReady nodeMap "ExposureTime"

/-- The event is a `GetNextImage` call. -/
def Event.isGetNextImage : Event → Bool
  | .GetNextImage _ _ => true
  | _ => false

/-- The event is the `Save` call for image `imageCnt` of camera `cam`. -/
def Event.isSaveOf (cam imageCnt : Nat) : Event → Bool
  | .Save i k _ => i == cam && k == imageCnt
  | _ => false

/-- The event is a `Save` call for an image of camera `cam`. -/
def Event.isSaveOfCamera (cam : Nat) : Event → Bool
  | .Save i _ _ => i == cam
  | _ => false

/-- A `Save` event carries the file name built at lines 659-669 from the
serial numbers `strSerialNumbers`; other events pass. -/
def Event.namedBy (strSerialNumbers : List String) : Event → Bool
  | .Save i k f => f == filename strSerialNumbers i k
  | _ => true

/-- The `GetNextImage` calls of a trace, in the order they were made, each as
the pair of the image counter and the camera index. -/
def getNextImageCalls (trace : List Event) : List (Nat × Nat) :=
  trace.filterMap fun e =>
    match e with
    | .GetNextImage cam imageCnt => some (imageCnt, cam)
    | _ => none

/-- The pairs of an image counter below `numImages` and a camera index below
`n`, listed counter by counter and, within one counter, camera by camera. -/
def lexPairs (numImages n : Nat) : List (Nat × Nat) :=
  (List.range numImages).flatMap fun imageCnt => (List.range n).map fun i => (imageCnt, i)

/-- The preparation round of the camera completes: the `AcquisitionMode`
guards pass, the write does not throw and `BeginAcquisition` does not throw. -/
def prepReady (pCam : Camera) : Bool :=
  enumReady pCam.nodeMap IsWritable "AcquisitionMode" "Continuous" && !pCam.beginThrows

/-- No call on an image of the camera throws in round `k`. -/
def imageCallsOk (pCam : Camera) (k : Nat) : Bool :=
  match pCam.nextImage k with
  | some img => !img.convertThrows && !img.saveThrows && !img.releaseThrows
  | none => false

/-- The image of round `k` is retrieved and complete. -/
def imageComplete (pCam : Camera) (k : Nat) : Bool :=
  match pCam.nextImage k with
  | some img => !img.incomplete
  | none => false

/-! ## Sample node maps -/

def onOff : List (String × EnumEntry) :=
  [("Off", ⟨true, true, 0⟩), ("On", ⟨true, true, 1⟩)]

def sources : List (String × EnumEntry) :=
  [("Software", ⟨true, true, 0⟩), ("Line0", ⟨true, true, 1⟩), ("Line3", ⟨true, true, 4⟩)]

def lineEntries : List (String × EnumEntry) :=
  [("Line0", ⟨true, true, 0⟩), ("Line2", ⟨true, true, 2⟩)]

def overlapEntries : List (String × EnumEntry) :=
  [("Off", ⟨true, true, 0⟩), ("ReadOut", ⟨true, true, 1⟩)]

/-- A fully accessible camera node map with the given serial number and
exposure maximum; trigger mode starts at `On`, everything else at 0/false. -/
def sampleNodeMap (serial : String) (expMax : ℚ) : INodeMap :=
  ⟨fun k =>
    if k = "TriggerMode" then some ⟨true, true, true, false, .enumeration onOff 1⟩
    else if k = "TriggerSource" then some ⟨true, true, true, false, .enumeration sources 1⟩
    else if k = "LineSelector" then some ⟨true, true, true, false, .enumeration lineEntries 0⟩
    else if k = "TriggerOverlap" then some ⟨true, true, true, false, .enumeration overlapEntries 0⟩
    else if k = "V3_3Enable" then some ⟨true, true, true, false, .boolean false⟩
    else if k = "ExposureTime" then some ⟨true, true, true, false, .float 100 expMax⟩
    else if k = "DeviceSerialNumber" then some ⟨true, true, false, false, .string serial⟩
    else if k = "AcquisitionMode" then
      some ⟨true, true, true, false, .enumeration [("Continuous", ⟨true, true, 0⟩)] 1⟩
    else if k = "TriggerSoftware" then some ⟨true, false, true, false, .command 0⟩
    else none⟩


/-- An image on which no call throws. -/
def goodImage : Image := ⟨false, false, false, false⟩

/-- A camera with `sampleNodeMap` on both sides, on which no call throws and
every image is complete. -/
def sampleCamera (serial : String) : Camera :=
  { nodeMap := sampleNodeMap serial 5000
    tlDeviceNodeMap := sampleNodeMap serial 5000
    initThrows := false
    beginThrows := false
    endThrows := false
    deInitThrows := false
    nextImage := fun _ => some goodImage }

/-- Two cameras on which every call succeeds, the primary one first. -/
def twoCameras : CameraList := [sampleCamera "16276718", sampleCamera "17000001"]

/-- A non-primary camera as `ConfigureTrigger` leaves it. -/
def configuredCamera : Camera :=
  { sampleCamera "17000001" with
    nodeMap := (ConfigureTrigger chosenTrigger (sampleNodeMap "17000001" 5000)).2 }

/-- A camera whose `AcquisitionMode` node is missing. -/
def noModeCamera : Camera :=
  { sampleCamera "17000002" with nodeMap := ⟨fun _ => none⟩ }

/-! ## Store lemmas -/

@[simp] theorem INodeMap.set_GetNode (nodeMap : INodeMap) (name : String) (node : Node)
    (k : String) :
    (nodeMap.set name node).GetNode k = if k = name then some node else nodeMap.GetNode k := rfl

theorem SetIntValue_frame {nodeMap nodeMap1 : INodeMap} {name : String} {v : Int}
    (h : SetIntValue nodeMap name v = some nodeMap1) (k : String) (hk : k ≠ name) :
    nodeMap1.GetNode k = nodeMap.GetNode k := by
  unfold SetIntValue at h
  split at h
  · split at h
    · cases h
    · split at h
      · cases h; simp [hk]
      · cases h
  · cases h

theorem SetBoolValue_frame {nodeMap nodeMap1 : INodeMap} {name : String} {b : Bool}
    (h : SetBoolValue nodeMap name b = some nodeMap1) (k : String) (hk : k ≠ name) :
    nodeMap1.GetNode k = nodeMap.GetNode k := by
  unfold SetBoolValue at h
  split at h
  · split at h
    · cases h
    · split at h
      · cases h; simp [hk]
      · cases h
  · cases h

theorem SetFloatValue_frame {nodeMap nodeMap1 : INodeMap} {name : String} {x : ℚ}
    (h : SetFloatValue nodeMap name x = some nodeMap1) (k : String) (hk : k ≠ name) :
    nodeMap1.GetNode k = nodeMap.GetNode k := by
  unfold SetFloatValue at h
  split at h
  · split at h
    · cases h
    · split at h
      · cases h; simp [hk]
      · cases h
  · cases h

theorem writeEntry_frame {nodeMap nodeMap1 : INodeMap} {name : String} {p : Option EnumEntry}
    (h : writeEntry nodeMap name p = some nodeMap1) (k : String) (hk : k ≠ name) :
    nodeMap1.GetNode k = nodeMap.GetNode k := by
  unfold writeEntry at h
  split at h
  · exact SetIntValue_frame h k hk
  · cases h

/-- A successful `writeEntry` of the node's own entry leaves the node holding
that entry's value. -/
theorem writeEntry_sets {nodeMap nodeMap1 : INodeMap} {name entry : String}
    (h : writeEntry nodeMap name (GetEntryByName (nodeMap.GetEnumeration name) entry) =
      some nodeMap1) :
    enumIsEntry nodeMap1 name entry = true := by
  unfold writeEntry at h
  split at h
  next e he =>
    unfold SetIntValue at h
    unfold GetEntryByName INodeMap.GetEnumeration at he
    cases hn : nodeMap.GetNode name with
    | none => simp [hn] at h
    | some node =>
      cases hkind : node.kind with
      | enumeration entries v =>
        simp only [hn, hkind] at h he
        split at h
        · cases h
        · cases h
          simp [enumIsEntry, he]
      | boolean _ => simp [hn, hkind] at he
      | float _ _ => simp [hn, hkind] at he
      | string _ => simp [hn, hkind] at he
      | command _ => simp [hn, hkind] at he
  · cases h

theorem enumIsEntry_congr {nodeMap nodeMap1 : INodeMap} {name : String}
    (h : nodeMap1.GetNode name = nodeMap.GetNode name) (entry : String) :
    enumIsEntry nodeMap1 name entry = enumIsEntry nodeMap name entry := by
  unfold enumIsEntry; rw [h]

theorem GetEnumeration_congr {nodeMap nodeMap1 : INodeMap} {name : String}
    (h : nodeMap1.GetNode name = nodeMap.GetNode name) :
    nodeMap1.GetEnumeration name = nodeMap.GetEnumeration name := by
  unfold INodeMap.GetEnumeration; rw [h]

theorem GetFloat_congr {nodeMap nodeMap1 : INodeMap} {name : String}
    (h : nodeMap1.GetNode name = nodeMap.GetNode name) :
    nodeMap1.GetFloat name = nodeMap.GetFloat name := by
  unfold INodeMap.GetFloat; rw [h]

theorem deviceSerialNumber_congr {nodeMap nodeMap1 : INodeMap}
    (h : nodeMap1.GetNode "DeviceSerialNumber" = nodeMap.GetNode "DeviceSerialNumber") :
    deviceSerialNumber nodeMap1 = deviceSerialNumber nodeMap := by
  unfold deviceSerialNumber INodeMap.GetString; rw [h]

theorem selectTriggerSource_frame {trig : triggerType} {swEntry : String}
    {nodeMap nodeMap1 : INodeMap}
    (h : selectTriggerSource trig swEntry nodeMap = some nodeMap1) (k : String)
    (hk : k ≠ "TriggerSource") : nodeMap1.GetNode k = nodeMap.GetNode k := by
  unfold selectTriggerSource at h
  simp only at h
  split at h
  · cases h
  · cases trig <;> simp only at h <;> split at h
    · cases h
    · exact writeEntry_frame h k hk
    · cases h
    · exact writeEntry_frame h k hk

theorem selectTriggerSource_sets {swEntry : String} {nodeMap nodeMap1 : INodeMap}
    (h : selectTriggerSource .SOFTWARE swEntry nodeMap = some nodeMap1) :
    enumIsEntry nodeMap1 "TriggerSource" swEntry = true := by
  unfold selectTriggerSource at h
  simp only at h
  split at h
  · cases h
  · split at h
    · cases h
    · exact writeEntry_sets h

/-! ## Shape of `ConfigureTrigger` -/

theorem configurePrimary_frame (trig : triggerType) (nodeMap : INodeMap) (k : String)
    (h1 : k ≠ "TriggerSource") (h2 : k ≠ "LineSelector") (h3 : k ≠ "V3_3Enable") :
    (configurePrimary trig nodeMap).2.GetNode k = nodeMap.GetNode k := by
  unfold configurePrimary
  split
  · rfl
  next nodeMap1 hsel =>
    have f1 := selectTriggerSource_frame hsel k h1
    dsimp only
    split
    · exact f1
    · split
      · exact f1
      · split
        · exact f1
        next nodeMap2 hw =>
          have f2 := (writeEntry_frame hw k h2).trans f1
          split
          · exact f2
          · split
            · exact f2
            next nodeMap3 hb => exact (SetBoolValue_frame hb k h3).trans f2

theorem configurePrimary_inv (trig : triggerType) (nodeMap : INodeMap)
    (h : (configurePrimary trig nodeMap).1 = 0) :
    ∃ nodeMap1 nodeMap2,
      selectTriggerSource trig "Software" nodeMap = some nodeMap1 ∧
      writeEntry nodeMap1 "LineSelector"
        (GetEntryByName (nodeMap1.GetEnumeration "LineSelector") "Line2") = some nodeMap2 ∧
      SetBoolValue nodeMap2 "V3_3Enable" true = some (configurePrimary trig nodeMap).2 := by
  unfold configurePrimary at h ⊢
  split
  next hsel => simp [hsel] at h
  next nodeMap1 hsel =>
    simp only [hsel] at h
    dsimp only at h ⊢
    split
    next hc => simp [hc] at h
    next hc =>
      simp only [hc] at h
      split
      next hc2 => simp [hc2] at h
      next hc2 =>
        simp only [hc2] at h
        split
        next hw => simp [hw] at h
        next nodeMap2 hw =>
          simp only [hw] at h
          split
          next hc3 => simp [hc3] at h
          next hc3 =>
            simp only [hc3] at h
            split
            next hb => simp [hb] at h
            next nodeMap3 hb => exact ⟨nodeMap1, nodeMap2, hsel, hw, hb⟩


theorem SetFloatValue_sets {nodeMap nodeMap1 : INodeMap} {name : String} {x : ℚ}
    (h : SetFloatValue nodeMap name x = some nodeMap1) : floatIs nodeMap1 name x = true := by
  unfold SetFloatValue at h
  split at h
  · split at h
    · cases h
    · split at h
      · cases h; simp [floatIs]
      · cases h
  · cases h

theorem SetBoolValue_sets {nodeMap nodeMap1 : INodeMap} {name : String} {b : Bool}
    (h : SetBoolValue nodeMap name b = some nodeMap1) : boolIs nodeMap1 name b = true := by
  unfold SetBoolValue at h
  split at h
  · split at h
    · cases h
    · split at h
      · cases h; simp [boolIs]
      · cases h
  · cases h

theorem floatIs_congr {nodeMap nodeMap1 : INodeMap} {name : String}
    (h : nodeMap1.GetNode name = nodeMap.GetNode name) (x : ℚ) :
    floatIs nodeMap1 name x = floatIs nodeMap name x := by
  unfold floatIs; rw [h]

theorem configureSecondary_frame (trig : triggerType) (nodeMap : INodeMap) (k : String)
    (h1 : k ≠ "TriggerSource") (h2 : k ≠ "TriggerOverlap") (h3 : k ≠ "ExposureTime")
    (h4 : k ≠ "TriggerMode") :
    (configureSecondary trig nodeMap).2.GetNode k = nodeMap.GetNode k := by
  unfold configureSecondary
  split
  · rfl
  next nodeMap1 hsel =>
    have f1 := selectTriggerSource_frame hsel k h1
    dsimp only
    split
    · exact f1
    · split
      · exact f1
      · split
        · exact f1
        next nodeMap2 hw =>
          have f2 := (writeEntry_frame hw k h2).trans f1
          split
          · exact f2
          · split
            · exact f2
            next nodeMap3 hx =>
              have f3 := (SetFloatValue_frame hx k h3).trans f2
              split
              · exact f3
              · split
                · exact f3
                next nodeMap4 hon => exact (writeEntry_frame hon k h4).trans f3

theorem configureSecondary_inv (trig : triggerType) (nodeMap : INodeMap)
    (h : (configureSecondary trig nodeMap).1 = 0) :
    ∃ nodeMap1 nodeMap2 nodeMap3,
      selectTriggerSource trig "Line3" nodeMap = some nodeMap1 ∧
      writeEntry nodeMap1 "TriggerOverlap"
        (GetEntryByName (nodeMap1.GetEnumeration "TriggerOverlap") "ReadOut") = some nodeMap2 ∧
      SetFloatValue nodeMap2 "ExposureTime"
        (exposureTimeToSet (GetMax (nodeMap2.GetFloat "ExposureTime"))) = some nodeMap3 ∧
      writeEntry nodeMap3 "TriggerMode"
        (GetEntryByName (nodeMap3.GetEnumeration "TriggerMode") "On") =
          some (configureSecondary trig nodeMap).2 := by
  unfold configureSecondary at h ⊢
  split
  next hsel => simp [hsel] at h
  next nodeMap1 hsel =>
    simp only [hsel] at h
    dsimp only at h ⊢
    split
    next hc => simp [hc] at h
    next hc =>
      simp only [hc] at h
      split
      next hc2 => simp [hc2] at h
      next hc2 =>
        simp only [hc2] at h
        split
        next hw => simp [hw] at h
        next nodeMap2 hw =>
          simp only [hw] at h
          split
          next hc3 => simp [hc3] at h
          next hc3 =>
            simp only [hc3] at h
            split
            next hx => simp [hx] at h
            next nodeMap3 hx =>
              simp only [hx] at h
              split
              next hc4 => simp [hc4] at h
              next hc4 =>
                simp only [hc4] at h
                split
                next hon => simp [hon] at h
                next nodeMap4 hon => exact ⟨nodeMap1, nodeMap2, nodeMap3, hsel, hw, hx, hon⟩

/-- Whatever `configureSecondary` returns, the `ExposureTime` node is either
untouched or holds `exposureTimeToSet` of its maximum. -/
theorem configureSecondary_exposure (trig : triggerType) (nodeMap : INodeMap) :
    (configureSecondary trig nodeMap).2.GetNode "ExposureTime" = nodeMap.GetNode "ExposureTime" ∨
    floatIs (configureSecondary trig nodeMap).2 "ExposureTime"
      (exposureTimeToSet (GetMax (nodeMap.GetFloat "ExposureTime"))) = true := by
  unfold configureSecondary
  split
  · exact Or.inl rfl
  next nodeMap1 hsel =>
    have f1 := selectTriggerSource_frame hsel "ExposureTime" (by decide)
    dsimp only
    split
    · exact Or.inl f1
    · split
      · exact Or.inl f1
      · split
        · exact Or.inl f1
        next nodeMap2 hw =>
          have f2 := (writeEntry_frame hw "ExposureTime" (by decide)).trans f1
          split
          · exact Or.inl f2
          · split
            · exact Or.inl f2
            next nodeMap3 hx =>
              have s3 := SetFloatValue_sets hx
              rw [GetFloat_congr f2] at s3
              split
              · exact Or.inr s3
              · split
                · exact Or.inr s3
                next nodeMap4 hon =>
                  right
                  rw [floatIs_congr (writeEntry_frame hon "ExposureTime" (by decide))]
                  exact s3

/-- The function `ConfigureTrigger` either returns -1 with the node map untouched, or writes
`Off` to `TriggerMode` and continues with the branch chosen by the serial
number of the node map it was given. -/
theorem ConfigureTrigger_cases (trig : triggerType) (nodeMap : INodeMap) :
    ConfigureTrigger trig nodeMap = (-1, nodeMap) ∨
    ∃ nodeMap1,
      writeEntry nodeMap "TriggerMode"
        (GetEntryByName (nodeMap.GetEnumeration "TriggerMode") "Off") = some nodeMap1 ∧
      ConfigureTrigger trig nodeMap =
        if deviceSerialNumber nodeMap = "16276718" then configurePrimary trig nodeMap1
        else configureSecondary trig nodeMap1 := by
  unfold ConfigureTrigger
  dsimp only
  split
  · exact Or.inl rfl
  · split
    · exact Or.inl rfl
    · split
      · exact Or.inl rfl
      next nodeMap1 hw =>
        right
        refine ⟨nodeMap1, hw, ?_⟩
        rw [deviceSerialNumber_congr (writeEntry_frame hw "DeviceSerialNumber" (by decide))]

/-! ## Readiness predicates, unfolded -/

theorem enumReady_elim {nodeMap : INodeMap} {access : Option Node → Bool} {name entry : String}
    (h : enumReady nodeMap access name entry = true) :
    ∃ node entries v e, nodeMap.GetNode name = some node ∧ node.kind = .enumeration entries v ∧
      node.available = true ∧ access (some node) = true ∧ entries.lookup entry = some e ∧
      e.available = true ∧ e.readable = true ∧ node.writeThrows = false := by
  unfold enumReady INodeMap.GetEnumeration at h
  cases hn : nodeMap.GetNode name with
  | none => simp [hn, IsAvailable] at h
  | some node =>
    cases hk : node.kind with
    | enumeration entries v =>
      cases he : entries.lookup entry with
      | none => simp [hn, hk, he, GetEntryByName, EntryIsAvailable] at h
      | some e =>
        simp [hn, hk, he, GetEntryByName, EntryIsAvailable, EntryIsReadable, IsAvailable,
          acceptsWrite] at h
        exact ⟨node, entries, v, e, rfl, hk, h.1.1.1.1, h.1.1.1.2, he, h.1.1.2, h.1.2, h.2⟩
    | boolean _ => simp [hn, hk, IsAvailable] at h
    | float _ _ => simp [hn, hk, IsAvailable] at h
    | string _ => simp [hn, hk, IsAvailable] at h
    | command _ => simp [hn, hk, IsAvailable] at h

theorem boolReady_elim {nodeMap : INodeMap} {name : String}
    (h : boolReady nodeMap name = true) :
    ∃ node b, nodeMap.GetNode name = some node ∧ node.kind = .boolean b ∧
      node.available = true ∧ node.readable = true ∧ node.writeThrows = false := by
  unfold boolReady INodeMap.GetBoolean at h
  cases hn : nodeMap.GetNode name with
  | none => simp [hn, IsAvailable] at h
  | some node =>
    cases hk : node.kind with
    | boolean b =>
      simp [hn, hk, IsAvailable, IsReadable, acceptsWrite] at h
      exact ⟨node, b, rfl, hk, h.1.1, h.1.2, h.2⟩
    | enumeration _ _ => simp [hn, hk, IsAvailable] at h
    | float _ _ => simp [hn, hk, IsAvailable] at h
    | string _ => simp [hn, hk, IsAvailable] at h
    | command _ => simp [hn, hk, IsAvailable] at h

theorem floatReady_elim {nodeMap : INodeMap} {name : String}
    (h : floatReady nodeMap name = true) :
    ∃ node x m, nodeMap.GetNode name = some node ∧ node.kind = .float x m ∧
      node.available = true ∧ node.writable = true ∧ node.writeThrows = false := by
  unfold floatReady INodeMap.GetFloat at h
  cases hn : nodeMap.GetNode name with
  | none => simp [hn, IsAvailable] at h
  | some node =>
    cases hk : node.kind with
    | float x m =>
      simp [hn, hk, IsAvailable, IsWritable, acceptsWrite] at h
      exact ⟨node, x, m, rfl, hk, h.1.1, h.1.2, h.2⟩
    | enumeration _ _ => simp [hn, hk, IsAvailable] at h
    | boolean _ => simp [hn, hk, IsAvailable] at h
    | string _ => simp [hn, hk, IsAvailable] at h
    | command _ => simp [hn, hk, IsAvailable] at h

theorem deviceSerialNumber_set (nodeMap : INodeMap) (name : String) (node : Node)
    (h : name ≠ "DeviceSerialNumber") :
    deviceSerialNumber (nodeMap.set name node) = deviceSerialNumber nodeMap := by
  have h2 : ¬ ("DeviceSerialNumber" = name) := fun e => h e.symm
  simp [deviceSerialNumber, INodeMap.GetString, h2]

/-! ## `ConfigureTrigger` -/

/-- C1: for every node map whose `DeviceSerialNumber` reads "16276718", on which
every guard of the primary path passes and no write throws, `ConfigureTrigger`
returns 0 and leaves `TriggerMode` at the value of its `Off` entry,
`LineSelector` at the value of its `Line2` entry and `V3_3Enable` true. -/
theorem ConfigureTrigger_primary (trig : triggerType) (nodeMap : INodeMap)
    (hs : deviceSerialNumber nodeMap = "16276718")
    (hr : primaryReady trig nodeMap = true) :
    (ConfigureTrigger trig nodeMap).1 = 0 ∧
    enumIsEntry (ConfigureTrigger trig nodeMap).2 "TriggerMode" "Off" = true ∧
    enumIsEntry (ConfigureTrigger trig nodeMap).2 "LineSelector" "Line2" = true ∧
    boolIs (ConfigureTrigger trig nodeMap).2 "V3_3Enable" true = true := by
  unfold primaryReady at hr
  simp only [Bool.and_eq_true] at hr
  obtain ⟨⟨⟨h1, h2⟩, h3⟩, h4⟩ := hr
  obtain ⟨n1, es1, v1, e1, g1, k1, a1, r1, l1, ea1, er1, t1⟩ := enumReady_elim h1
  obtain ⟨n2, es2, v2, e2, g2, k2, a2, r2, l2, ea2, er2, t2⟩ := enumReady_elim h2
  obtain ⟨n3, es3, v3, e3, g3, k3, a3, r3, l3, ea3, er3, t3⟩ := enumReady_elim h3
  obtain ⟨n4, b4, g4, k4, a4, r4, t4⟩ := boolReady_elim h4
  simp only [IsReadable, IsWritable] at r1 r2 r3
  have hs1 : ∀ n, deviceSerialNumber (nodeMap.set "TriggerMode" n) = "16276718" := by
    intro n; rw [deviceSerialNumber_set _ _ _ (by decide)]; exact hs
  cases trig <;> simp only [primarySourceEntry] at l2 <;>
  simp [ConfigureTrigger, configurePrimary, selectTriggerSource, INodeMap.GetEnumeration,
    INodeMap.GetBoolean, IsAvailable, IsReadable, IsWritable, GetEntryByName, EntryIsAvailable,
    EntryIsReadable, writeEntry, SetIntValue, SetBoolValue, enumIsEntry, boolIs,
    g1, k1, a1, r1, l1, ea1, er1, t1, g2, k2, a2, r2, l2, ea2, er2, t2,
    g3, k3, a3, r3, l3, ea3, er3, t3, g4, k4, a4, r4, t4, hs1]

theorem ConfigureTrigger_primary_witness :
    deviceSerialNumber (sampleNodeMap "16276718" 5000) = "16276718" ∧
    primaryReady .SOFTWARE (sampleNodeMap "16276718" 5000) = true ∧
    ((ConfigureTrigger .SOFTWARE (sampleNodeMap "16276718" 5000)).1 = 0 ∧
     enumIsEntry (ConfigureTrigger .SOFTWARE (sampleNodeMap "16276718" 5000)).2
       "TriggerMode" "Off" = true ∧
     enumIsEntry (ConfigureTrigger .SOFTWARE (sampleNodeMap "16276718" 5000)).2
       "LineSelector" "Line2" = true ∧
     boolIs (ConfigureTrigger .SOFTWARE (sampleNodeMap "16276718" 5000)).2
       "V3_3Enable" true = true) :=
  ⟨by decide, by decide,
    ConfigureTrigger_primary .SOFTWARE (sampleNodeMap "16276718" 5000) (by decide) (by decide)⟩

/-- C2: for every node map whose serial number is anything other than
"16276718" (an unavailable or unreadable serial node counts as the empty
string), on which every guard of the non-primary path passes and no write
throws, `ConfigureTrigger` returns 0 and leaves `TriggerMode` at the value of
its `On` entry and `TriggerOverlap` at the value of its `ReadOut` entry. -/
theorem ConfigureTrigger_secondary (trig : triggerType) (nodeMap : INodeMap)
    (hs : deviceSerialNumber nodeMap ≠ "16276718")
    (hr : secondaryReady trig nodeMap = true) :
    (ConfigureTrigger trig nodeMap).1 = 0 ∧
    enumIsEntry (ConfigureTrigger trig nodeMap).2 "TriggerMode" "On" = true ∧
    enumIsEntry (ConfigureTrigger trig nodeMap).2 "TriggerOverlap" "ReadOut" = true := by
  unfold secondaryReady at hr
  simp only [Bool.and_eq_true] at hr
  obtain ⟨⟨⟨⟨⟨h1, hoa⟩, hor⟩, h2⟩, h3⟩, h4⟩ := hr
  obtain ⟨n1, es1, v1, e1, g1, k1, a1, r1, l1, ea1, er1, t1⟩ := enumReady_elim h1
  obtain ⟨n2, es2, v2, e2, g2, k2, a2, r2, l2, ea2, er2, t2⟩ := enumReady_elim h2
  obtain ⟨n3, es3, v3, e3, g3, k3, a3, r3, l3, ea3, er3, t3⟩ := enumReady_elim h3
  obtain ⟨n4, x4, m4, g4, k4, a4, r4, t4⟩ := floatReady_elim h4
  simp only [IsReadable, IsWritable] at r1 r2 r3
  simp only [INodeMap.GetEnumeration, g1, k1, GetEntryByName] at hoa hor
  cases lon : es1.lookup "On" with
  | none => simp [lon, EntryIsAvailable] at hoa
  | some eon =>
    simp only [lon, EntryIsAvailable, EntryIsReadable] at hoa hor
    have hs1 : ∀ n, ¬ deviceSerialNumber (nodeMap.set "TriggerMode" n) = "16276718" := by
      intro n; rw [deviceSerialNumber_set _ _ _ (by decide)]; exact hs
    cases trig <;> simp only [secondarySourceEntry] at l2 <;>
    simp [ConfigureTrigger, configureSecondary, selectTriggerSource, INodeMap.GetEnumeration,
      INodeMap.GetFloat, IsAvailable, IsReadable, IsWritable, GetEntryByName, EntryIsAvailable,
      EntryIsReadable, writeEntry, SetIntValue, SetFloatValue, enumIsEntry,
      g1, k1, a1, r1, l1, ea1, er1, t1, g2, k2, a2, r2, l2, ea2, er2, t2,
      g3, k3, a3, r3, l3, ea3, er3, t3, g4, k4, a4, r4, t4, hs1, lon, hoa, hor]

theorem ConfigureTrigger_secondary_witness :
    deviceSerialNumber (sampleNodeMap "17000001" 5000) ≠ "16276718" ∧
    secondaryReady .SOFTWARE (sampleNodeMap "17000001" 5000) = true ∧
    ((ConfigureTrigger .SOFTWARE (sampleNodeMap "17000001" 5000)).1 = 0 ∧
     enumIsEntry (ConfigureTrigger .SOFTWARE (sampleNodeMap "17000001" 5000)).2
       "TriggerMode" "On" = true ∧
     enumIsEntry (ConfigureTrigger .SOFTWARE (sampleNodeMap "17000001" 5000)).2
       "TriggerOverlap" "ReadOut" = true) :=
  ⟨by decide, by decide,
    ConfigureTrigger_secondary .SOFTWARE (sampleNodeMap "17000001" 5000) (by decide) (by decide)⟩

/-- C3, as stated, fails: with `chosenTrigger` equal to `SOFTWARE`, a camera
with another serial number is configured successfully and its `TriggerSource`
does not hold the value of the `Software` entry. -/
theorem line3_source_counterexample :
    chosenTrigger = .SOFTWARE ∧
    (ConfigureTrigger chosenTrigger (sampleNodeMap "17000001" 5000)).1 = 0 ∧
    enumIsEntry (ConfigureTrigger chosenTrigger (sampleNodeMap "17000001" 5000)).2
      "TriggerSource" "Software" = false := by
  decide

/-- C3 (amended): with the trigger type `SOFTWARE`, every call of
`ConfigureTrigger` that returns 0 leaves `TriggerSource` at the value of its
`Software` entry when the serial number is "16276718", and at the value of its
`Line3` entry for every other serial number. -/
theorem ConfigureTrigger_source (nodeMap : INodeMap)
    (h : (ConfigureTrigger .SOFTWARE nodeMap).1 = 0) :
    enumIsEntry (ConfigureTrigger .SOFTWARE nodeMap).2 "TriggerSource"
      (if deviceSerialNumber nodeMap = "16276718" then "Software" else "Line3") = true := by
  rcases ConfigureTrigger_cases .SOFTWARE nodeMap with hc | ⟨nodeMap1, _, hc⟩
  · rw [hc] at h; simp at h
  · rw [hc] at h ⊢
    by_cases hs : deviceSerialNumber nodeMap = "16276718"
    · simp only [hs, if_true] at h ⊢
      obtain ⟨m1, m2, hsel, hw, hb⟩ := configurePrimary_inv _ _ h
      rw [enumIsEntry_congr ((SetBoolValue_frame hb "TriggerSource" (by decide)).trans
        (writeEntry_frame hw "TriggerSource" (by decide)))]
      exact selectTriggerSource_sets hsel
    · simp only [hs, if_false] at h ⊢
      obtain ⟨m1, m2, m3, hsel, hw, hx, hon⟩ := configureSecondary_inv _ _ h
      rw [enumIsEntry_congr ((writeEntry_frame hon "TriggerSource" (by decide)).trans
        ((SetFloatValue_frame hx "TriggerSource" (by decide)).trans
          (writeEntry_frame hw "TriggerSource" (by decide))))]
      exact selectTriggerSource_sets hsel

theorem ConfigureTrigger_source_witness :
    (ConfigureTrigger .SOFTWARE (sampleNodeMap "17000001" 5000)).1 = 0 ∧
    enumIsEntry (ConfigureTrigger .SOFTWARE (sampleNodeMap "17000001" 5000)).2 "TriggerSource"
      (if deviceSerialNumber (sampleNodeMap "17000001" 5000) = "16276718" then "Software"
        else "Line3") = true :=
  ⟨by decide, ConfigureTrigger_source (sampleNodeMap "17000001" 5000) (by decide)⟩

/-- C4: the serial-dependent writes follow the comparison of the serial number
with "16276718" alone.  Whatever `ConfigureTrigger` returns, for a serial
number other than "16276718" the nodes `LineSelector` and `V3_3Enable` are as
before the call, and for the serial number "16276718" the nodes
`TriggerOverlap` and `ExposureTime` are as before the call. -/
theorem ConfigureTrigger_frame (trig : triggerType) (nodeMap : INodeMap) :
    (deviceSerialNumber nodeMap ≠ "16276718" →
      (ConfigureTrigger trig nodeMap).2.GetNode "LineSelector" = nodeMap.GetNode "LineSelector" ∧
      (ConfigureTrigger trig nodeMap).2.GetNode "V3_3Enable" = nodeMap.GetNode "V3_3Enable") ∧
    (deviceSerialNumber nodeMap = "16276718" →
      (ConfigureTrigger trig nodeMap).2.GetNode "TriggerOverlap" =
        nodeMap.GetNode "TriggerOverlap" ∧
      (ConfigureTrigger trig nodeMap).2.GetNode "ExposureTime" =
        nodeMap.GetNode "ExposureTime") := by
  rcases ConfigureTrigger_cases trig nodeMap with hc | ⟨nodeMap1, hw, hc⟩
  · rw [hc]; exact ⟨fun _ => ⟨rfl, rfl⟩, fun _ => ⟨rfl, rfl⟩⟩
  · rw [hc]
    constructor
    · intro hs
      simp only [hs, if_false]
      exact ⟨(configureSecondary_frame trig nodeMap1 "LineSelector" (by decide) (by decide)
          (by decide) (by decide)).trans (writeEntry_frame hw _ (by decide)),
        (configureSecondary_frame trig nodeMap1 "V3_3Enable" (by decide) (by decide)
          (by decide) (by decide)).trans (writeEntry_frame hw _ (by decide))⟩
    · intro hs
      simp only [hs, if_true]
      exact ⟨(configurePrimary_frame trig nodeMap1 "TriggerOverlap" (by decide) (by decide)
          (by decide)).trans (writeEntry_frame hw _ (by decide)),
        (configurePrimary_frame trig nodeMap1 "ExposureTime" (by decide) (by decide)
          (by decide)).trans (writeEntry_frame hw _ (by decide))⟩

theorem ConfigureTrigger_frame_witness :
    deviceSerialNumber (sampleNodeMap "17000001" 5000) ≠ "16276718" ∧
    ((ConfigureTrigger .SOFTWARE (sampleNodeMap "17000001" 5000)).2.GetNode "LineSelector" =
        (sampleNodeMap "17000001" 5000).GetNode "LineSelector" ∧
      (ConfigureTrigger .SOFTWARE (sampleNodeMap "17000001" 5000)).2.GetNode "V3_3Enable" =
        (sampleNodeMap "17000001" 5000).GetNode "V3_3Enable") ∧
    deviceSerialNumber (sampleNodeMap "16276718" 5000) = "16276718" ∧
    ((ConfigureTrigger .SOFTWARE (sampleNodeMap "16276718" 5000)).2.GetNode "TriggerOverlap" =
        (sampleNodeMap "16276718" 5000).GetNode "TriggerOverlap" ∧
      (ConfigureTrigger .SOFTWARE (sampleNodeMap "16276718" 5000)).2.GetNode "ExposureTime" =
        (sampleNodeMap "16276718" 5000).GetNode "ExposureTime") :=
  ⟨by decide,
    (ConfigureTrigger_frame .SOFTWARE (sampleNodeMap "17000001" 5000)).1 (by decide),
    by decide,
    (ConfigureTrigger_frame .SOFTWARE (sampleNodeMap "16276718" 5000)).2 (by decide)⟩

/-- C5: for every maximum `M` reported by the `ExposureTime` node of a
non-primary camera, the exposure time `ConfigureTrigger` writes is
`min 4000 M`: it is at most `M`, it is 4000 whenever `M ≥ 4000`, the node
afterwards is either untouched or holds `min 4000 M`, and it holds
`min 4000 M` whenever the call returns 0. -/
theorem ConfigureTrigger_exposure (trig : triggerType) (nodeMap : INodeMap) (M : ℚ)
    (hM : GetMax (nodeMap.GetFloat "ExposureTime") = M)
    (hs : deviceSerialNumber nodeMap ≠ "16276718") :
    exposureTimeToSet M = min 4000 M ∧
    exposureTimeToSet M ≤ M ∧
    (4000 ≤ M → exposureTimeToSet M = 4000) ∧
    ((ConfigureTrigger trig nodeMap).2.GetNode "ExposureTime" = nodeMap.GetNode "ExposureTime" ∨
      floatIs (ConfigureTrigger trig nodeMap).2 "ExposureTime" (min 4000 M) = true) ∧
    ((ConfigureTrigger trig nodeMap).1 = 0 →
      floatIs (ConfigureTrigger trig nodeMap).2 "ExposureTime" (min 4000 M) = true) := by
  have hmin : exposureTimeToSet M = min 4000 M := by
    unfold exposureTimeToSet
    split
    next h => exact (min_eq_right (le_of_lt h)).symm
    next h => exact (min_eq_left (not_lt.mp h)).symm
  refine ⟨hmin, by rw [hmin]; exact min_le_right _ _, fun h => by rw [hmin]; exact min_eq_left h,
    ?_, ?_⟩
  · rcases ConfigureTrigger_cases trig nodeMap with hc | ⟨nodeMap1, hw, hc⟩
    · rw [hc]; exact Or.inl rfl
    · rw [hc]
      simp only [hs, if_false]
      have f := writeEntry_frame hw "ExposureTime" (by decide)
      rcases configureSecondary_exposure trig nodeMap1 with hu | hv
      · exact Or.inl (hu.trans f)
      · right
        rw [GetFloat_congr f, hM, hmin] at hv
        exact hv
  · intro h0
    rcases ConfigureTrigger_cases trig nodeMap with hc | ⟨nodeMap1, hw, hc⟩
    · rw [hc] at h0; simp at h0
    · rw [hc] at h0 ⊢
      simp only [hs, if_false] at h0 ⊢
      obtain ⟨m1, m2, m3, hsel, hov, hx, hon⟩ := configureSecondary_inv _ _ h0
      rw [floatIs_congr (writeEntry_frame hon "ExposureTime" (by decide))]
      have s := SetFloatValue_sets hx
      have f : m2.GetNode "ExposureTime" = nodeMap.GetNode "ExposureTime" :=
        (writeEntry_frame hov "ExposureTime" (by decide)).trans
          ((selectTriggerSource_frame hsel "ExposureTime" (by decide)).trans
            (writeEntry_frame hw "ExposureTime" (by decide)))
      rw [GetFloat_congr f, hM, hmin] at s
      exact s

theorem ConfigureTrigger_exposure_witness :
    GetMax ((sampleNodeMap "17000001" 2500).GetFloat "ExposureTime") = 2500 ∧
    deviceSerialNumber (sampleNodeMap "17000001" 2500) ≠ "16276718" ∧
    (ConfigureTrigger .SOFTWARE (sampleNodeMap "17000001" 2500)).1 = 0 ∧
    floatIs (ConfigureTrigger .SOFTWARE (sampleNodeMap "17000001" 2500)).2 "ExposureTime"
      (min 4000 2500) = true :=
  ⟨by decide, by decide, by decide,
    (ConfigureTrigger_exposure .SOFTWARE (sampleNodeMap "17000001" 2500) 2500 (by decide)
      (by decide)).2.2.2.2 (by decide)⟩

/-! ## Traces of `AcquireImages` -/

theorem prepareCamera_fields (i : Nat) (pCam : Camera) :
    (prepareCamera i pCam).2.1.nextImage = pCam.nextImage ∧
    (prepareCamera i pCam).2.1.endThrows = pCam.endThrows := by
  unfold prepareCamera
  dsimp only
  split
  · exact ⟨rfl, rfl⟩
  · split
    · exact ⟨rfl, rfl⟩
    · split
      · exact ⟨rfl, rfl⟩
      · split <;> exact ⟨rfl, rfl⟩

theorem prepareCameras_fields (i : Nat) (camList : CameraList) :
    (prepareCameras i camList).2.1.map Camera.nextImage = camList.map Camera.nextImage ∧
    (prepareCameras i camList).2.1.map Camera.endThrows = camList.map Camera.endThrows := by
  induction camList generalizing i with
  | nil => exact ⟨rfl, rfl⟩
  | cons pCam rest ih =>
    unfold prepareCameras
    dsimp only
    have hf := prepareCamera_fields i pCam
    split
    · simp [hf.1, hf.2, (ih (i + 1)).1, (ih (i + 1)).2]
    · simp [hf.1, hf.2]

theorem prepareCamera_ok (i : Nat) (pCam : Camera) (h : prepReady pCam = true) :
    (prepareCamera i pCam).1 = true ∧ (prepareCamera i pCam).2.2.2 = [.BeginAcquisition i] := by
  unfold prepReady at h
  simp only [Bool.and_eq_true] at h
  obtain ⟨h1, hb⟩ := h
  obtain ⟨n, es, v, e, g, k, a, w, l, ea, er, t⟩ := enumReady_elim h1
  simp only [IsWritable] at w
  simp at hb
  simp [prepareCamera, INodeMap.GetEnumeration, IsAvailable, IsWritable, GetEntryByName,
    EntryIsAvailable, EntryIsReadable, writeEntry, SetIntValue, g, k, a, w, l, ea, er, t, hb]

theorem prepareCameras_ok (i : Nat) (camList : CameraList)
    (h : ∀ c ∈ camList, prepReady c = true) :
    (prepareCameras i camList).1 = true ∧
    (prepareCameras i camList).2.2.2 = (List.range' i camList.length).map Event.BeginAcquisition := by
  induction camList generalizing i with
  | nil => exact ⟨rfl, rfl⟩
  | cons pCam rest ih =>
    have h0 := prepareCamera_ok i pCam (h pCam (List.mem_cons_self _ _))
    have h1 := ih (i + 1) (fun c hc => h c (List.mem_cons_of_mem _ hc))
    unfold prepareCameras
    simp [h0.1, h0.2, h1.1, h1.2, List.range'_succ]

theorem endAcquisitions_ok (i : Nat) (camList : CameraList)
    (h : ∀ c ∈ camList, c.endThrows = false) :
    (endAcquisitions i camList).1 = true ∧
    (endAcquisitions i camList).2 = (List.range' i camList.length).map Event.EndAcquisition := by
  induction camList generalizing i with
  | nil => exact ⟨rfl, rfl⟩
  | cons pCam rest ih =>
    have h0 := h pCam (List.mem_cons_self _ _)
    have h1 := ih (i + 1) (fun c hc => h c (List.mem_cons_of_mem _ hc))
    unfold endAcquisitions
    simp [h0, h1.1, h1.2, List.range'_succ]

theorem endAcquisitions_congr (i : Nat) (l l1 : CameraList)
    (h : l.map Camera.endThrows = l1.map Camera.endThrows) :
    endAcquisitions i l = endAcquisitions i l1 := by
  induction l generalizing i l1 with
  | nil =>
    cases l1 with
    | nil => rfl
    | cons _ _ => simp at h
  | cons c rest ih =>
    cases l1 with
    | nil => simp at h
    | cons c1 rest1 =>
      simp only [List.map_cons, List.cons.injEq] at h
      unfold endAcquisitions
      rw [h.1, ih (i + 1) rest1 h.2]

theorem grabImage_congr (ss : List String) (k i : Nat) (c c1 : Camera)
    (h : c.nextImage = c1.nextImage) : grabImage ss k i c = grabImage ss k i c1 := by
  unfold grabImage; rw [h]

theorem grabCameras_congr (ss : List String) (k i : Nat) (l l1 : CameraList) (r : Int)
    (h : l.map Camera.nextImage = l1.map Camera.nextImage) :
    grabCameras ss k i l r = grabCameras ss k i l1 r := by
  induction l generalizing i l1 r with
  | nil =>
    cases l1 with
    | nil => rfl
    | cons _ _ => simp at h
  | cons c rest ih =>
    cases l1 with
    | nil => simp at h
    | cons c1 rest1 =>
      simp only [List.map_cons, List.cons.injEq] at h
      unfold grabCameras
      rw [grabImage_congr ss k i c c1 h.1]
      dsimp only
      rw [ih (i + 1) rest1 _ h.2]

theorem grabImages_congr (ss : List String) (l l1 : CameraList) (n k : Nat) (r : Int)
    (h : l.map Camera.nextImage = l1.map Camera.nextImage) :
    grabImages ss l n k r = grabImages ss l1 n k r := by
  induction n generalizing k r with
  | zero => rfl
  | succ n ih =>
    unfold grabImages
    dsimp only
    rw [grabCameras_congr ss k 0 l l1 r h, ih]

/-- The calls made by the inner loop do not depend on the incoming `result`. -/
theorem grabCameras_events (ss : List String) (k i : Nat) (l : CameraList) (r : Int) :
    (grabCameras ss k i l r).2 = (grabCameras ss k i l 0).2 := by
  induction l generalizing i r with
  | nil => rfl
  | cons c rest ih =>
    unfold grabCameras
    dsimp only
    rw [ih (i + 1) (if (grabImage ss k i c).1 then -1 else r),
      ih (i + 1) (if (grabImage ss k i c).1 then -1 else 0)]

/-! ## Counting calls in the image loop -/

theorem countP_map_eq_zero {α : Type} (p : Event → Bool) (f : α → Event) (l : List α)
    (h : ∀ x, p (f x) = false) : (l.map f).countP p = 0 := by
  induction l with
  | nil => rfl
  | cons a rest ih => simp [List.countP_cons, h a, ih]

/-- A predicate that only holds of calls made for camera `i0` is counted, in
one round of the inner loop, on camera `i0` alone. -/
theorem grabCameras_countP_single (p : Event → Bool) (ss : List String) (k i0 : Nat)
    (hz : ∀ j c, j ≠ i0 → ((grabImage ss k j c).2).countP p = 0)
    (l : CameraList) (i : Nat) (r : Int) :
    ((grabCameras ss k i l r).2).countP p =
      if i ≤ i0 then
        (match l[i0 - i]? with
          | some c => ((grabImage ss k i0 c).2).countP p
          | none => 0)
      else 0 := by
  induction l generalizing i r with
  | nil => simp [grabCameras]
  | cons c rest ih =>
    unfold grabCameras
    dsimp only
    rw [List.countP_append, ih]
    rcases Nat.lt_trichotomy i i0 with hlt | heq | hgt
    · have e : i0 - i = (i0 - (i + 1)) + 1 := by omega
      have h1 : i + 1 ≤ i0 := hlt
      rw [hz i c (Nat.ne_of_lt hlt), if_pos h1, if_pos (Nat.le_of_lt hlt), e,
        List.getElem?_cons_succ, Nat.zero_add]
    · subst heq
      have h1 : ¬ (i + 1 ≤ i) := by omega
      rw [if_neg h1, if_pos (Nat.le_refl i), Nat.sub_self, Nat.add_zero]
      simp
    · have h1 : ¬ (i + 1 ≤ i0) := by omega
      have h2 : ¬ (i ≤ i0) := by omega
      rw [hz i c (Nat.ne_of_gt hgt), if_neg h1, if_neg h2]

/-- A predicate that only holds of calls made in round `k0` is counted, over
the rounds of the outer loop, in round `k0` alone. -/
theorem grabImages_countP_single (p : Event → Bool) (hg : p Event.getchar = false)
    (ss : List String) (l : CameraList) (k0 : Nat)
    (hz : ∀ k, k ≠ k0 → ((grabCameras ss k 0 l 0).2).countP p = 0)
    (n k : Nat) (r : Int) :
    ((grabImages ss l n k r).2).countP p =
      if k ≤ k0 ∧ k0 < k + n then ((grabCameras ss k0 0 l 0).2).countP p else 0 := by
  induction n generalizing k r with
  | zero =>
    have h0 : ¬ (k ≤ k0 ∧ k0 < k + 0) := by omega
    rw [if_neg h0]
    rfl
  | succ n ih =>
    unfold grabImages
    dsimp only
    rw [List.countP_cons, hg, List.countP_append, ih, grabCameras_events]
    simp only [Bool.false_eq_true, if_false, Nat.add_zero]
    by_cases hk : k = k0
    · subst hk
      have h1 : ¬ (k + 1 ≤ k ∧ k < k + 1 + n) := by omega
      have h2 : k ≤ k ∧ k < k + (n + 1) := by omega
      rw [if_neg h1, if_pos h2, Nat.add_zero]
    · rw [hz k hk, Nat.zero_add]
      by_cases hin : k ≤ k0 ∧ k0 < k + (n + 1)
      · have h2 : k + 1 ≤ k0 ∧ k0 < k + 1 + n := by omega
        rw [if_pos hin, if_pos h2]
      · have h2 : ¬ (k + 1 ≤ k0 ∧ k0 < k + 1 + n) := by omega
        rw [if_neg hin, if_neg h2]

/-- A predicate that only holds of calls made for camera `i0` in round `k0`
is counted, over the whole image loop, in that one loop body. -/
theorem grabImages_countP_at (p : Event → Bool) (hg : p Event.getchar = false)
    (ss : List String) (l : CameraList) (i0 k0 : Nat)
    (hz : ∀ k j c, (j ≠ i0 ∨ k ≠ k0) → ((grabImage ss k j c).2).countP p = 0)
    (n : Nat) (r : Int) :
    ((grabImages ss l n 0 r).2).countP p =
      if k0 < n then
        (match l[i0]? with
          | some c => ((grabImage ss k0 i0 c).2).countP p
          | none => 0)
      else 0 := by
  have hround : ∀ k, ((grabCameras ss k 0 l 0).2).countP p =
      (match l[i0]? with
        | some c => ((grabImage ss k i0 c).2).countP p
        | none => 0) := by
    intro k
    rw [grabCameras_countP_single p ss k i0 (fun j c hj => hz k j c (Or.inl hj))]
    simp
  have hzero : ∀ k, k ≠ k0 → ((grabCameras ss k 0 l 0).2).countP p = 0 := by
    intro k hk
    rw [hround k]
    split
    · exact hz k i0 _ (Or.inr hk)
    · rfl
  rw [grabImages_countP_single p hg ss l k0 hzero, hround k0]
  simp

/-- A predicate counted `m` times in every round is counted `n * m` times
over `n` rounds. -/
theorem grabImages_countP_rounds (p : Event → Bool) (hg : p Event.getchar = false)
    (ss : List String) (l : CameraList) (m : Nat) (n k : Nat) (r : Int)
    (hm : ∀ j, k ≤ j → j < k + n → ((grabCameras ss j 0 l 0).2).countP p = m) :
    ((grabImages ss l n k r).2).countP p = n * m := by
  induction n generalizing k r with
  | zero => simp [grabImages]
  | succ n ih =>
    unfold grabImages
    dsimp only
    have h0 : k < k + (n + 1) := by omega
    rw [List.countP_cons, hg, List.countP_append, grabCameras_events,
      hm k (Nat.le_refl _) h0, ih (k + 1) _ (fun j h1 h2 => hm j (by omega) (by omega))]
    simp [Nat.succ_mul, Nat.add_comm]

theorem grabImage_getNextImage (ss : List String) (k i : Nat) (c : Camera) :
    ((grabImage ss k i c).2).countP Event.isGetNextImage = 1 := by
  unfold grabImage
  split
  · rfl
  · split
    · split <;> rfl
    · split
      · rfl
      · split
        · rfl
        · split <;> rfl

theorem grabCameras_getNextImage (ss : List String) (k i : Nat) (l : CameraList) (r : Int) :
    ((grabCameras ss k i l r).2).countP Event.isGetNextImage = l.length := by
  induction l generalizing i r with
  | nil => rfl
  | cons c rest ih =>
    unfold grabCameras
    dsimp only
    rw [List.countP_append, ih, grabImage_getNextImage, List.length_cons, Nat.add_comm]

theorem grabImage_count_getNextImage (ss : List String) (k i : Nat) (c : Camera) (i0 k0 : Nat) :
    ((grabImage ss k i c).2).count (Event.GetNextImage i0 k0) =
      if i = i0 ∧ k = k0 then 1 else 0 := by
  unfold grabImage
  by_cases h : i = i0 ∧ k = k0
  · obtain ⟨h1, h2⟩ := h
    subst h1 h2
    split
    · simp
    · split
      · split <;> simp
      · split
        · simp
        · split
          · simp
          · split <;> simp
  · have h3 : ¬ (Event.GetNextImage i k = Event.GetNextImage i0 k0) := by
      intro e; injection e with e1 e2; exact h ⟨e1, e2⟩
    rw [if_neg h]
    split
    · simp [List.count_cons, h, h3]
    · split
      · split <;> simp [List.count_cons, h, h3]
      · split
        · simp [List.count_cons, h, h3]
        · split
          · simp [List.count_cons, h, h3]
          · split <;> simp [List.count_cons, h, h3]

theorem grabImage_no_control (ss : List String) (k i : Nat) (c : Camera) (j : Nat) :
    Event.BeginAcquisition j ∉ (grabImage ss k i c).2 ∧
    Event.EndAcquisition j ∉ (grabImage ss k i c).2 := by
  unfold grabImage
  split
  · simp
  · split
    · split <;> simp
    · split
      · simp
      · split
        · simp
        · split <;> simp

theorem grabCameras_no_control (ss : List String) (k i : Nat) (l : CameraList) (r : Int)
    (j : Nat) :
    Event.BeginAcquisition j ∉ (grabCameras ss k i l r).2 ∧
    Event.EndAcquisition j ∉ (grabCameras ss k i l r).2 := by
  induction l generalizing i r with
  | nil => simp [grabCameras]
  | cons c rest ih =>
    unfold grabCameras
    dsimp only
    have h0 := grabImage_no_control ss k i c j
    have h1 := ih (i + 1) (if (grabImage ss k i c).1 then -1 else r)
    simp [List.mem_append, h0.1, h0.2, h1.1, h1.2]

theorem grabImages_no_control (ss : List String) (l : CameraList) (n k : Nat) (r : Int)
    (j : Nat) :
    Event.BeginAcquisition j ∉ (grabImages ss l n k r).2 ∧
    Event.EndAcquisition j ∉ (grabImages ss l n k r).2 := by
  induction n generalizing k r with
  | zero => simp [grabImages]
  | succ n ih =>
    unfold grabImages
    dsimp only
    have h0 := grabCameras_no_control ss k 0 l r j
    have h1 := ih (k + 1) (grabCameras ss k 0 l r).1
    simp [List.mem_append, h0.1, h0.2, h1.1, h1.2]

theorem grabImage_convert_zero (ss : List String) (k j : Nat) (c : Camera) (i0 k0 : Nat)
    (h : j ≠ i0 ∨ k ≠ k0) :
    ((grabImage ss k j c).2).countP (fun e => e == Event.Convert i0 k0) = 0 ∧
    ((grabImage ss k j c).2).countP (Event.isSaveOf i0 k0) = 0 := by
  have h1 : ¬ (j = i0 ∧ k = k0) := by
    intro e; rcases h with h | h
    · exact h e.1
    · exact h e.2
  unfold grabImage
  split
  · simp [List.countP_cons, Event.isSaveOf]
  · split
    · split <;> simp [List.countP_cons, Event.isSaveOf]
    · split
      · simp [List.countP_cons, Event.isSaveOf, h1]
      · split
        · simp [List.countP_cons, Event.isSaveOf, h1]
        · split <;> simp [List.countP_cons, Event.isSaveOf, h1]

theorem grabImage_convert_at (ss : List String) (k i : Nat) (c : Camera)
    (hok : imageCallsOk c k = true) :
    ((grabImage ss k i c).2).countP (fun e => e == Event.Convert i k) =
      (if imageComplete c k = true then 1 else 0) ∧
    ((grabImage ss k i c).2).countP (Event.isSaveOf i k) =
      (if imageComplete c k = true then 1 else 0) := by
  unfold imageCallsOk at hok
  unfold grabImage imageComplete
  cases hn : c.nextImage k with
  | none => simp [hn] at hok
  | some img =>
    simp only [hn, Bool.and_eq_true, Bool.not_eq_true'] at hok
    obtain ⟨⟨h1, h2⟩, h3⟩ := hok
    cases hi : img.incomplete <;> simp [h1, h2, h3, hi, List.countP_cons, Event.isSaveOf]

theorem grabImage_saveOfCamera_zero (ss : List String) (k j : Nat) (c : Camera) (i0 : Nat)
    (h : j ≠ i0) : ((grabImage ss k j c).2).countP (Event.isSaveOfCamera i0) = 0 := by
  unfold grabImage
  split
  · simp [List.countP_cons, Event.isSaveOfCamera]
  · split
    · split <;> simp [List.countP_cons, Event.isSaveOfCamera]
    · split
      · simp [List.countP_cons, Event.isSaveOfCamera]
      · split
        · simp [List.countP_cons, Event.isSaveOfCamera, h]
        · split <;> simp [List.countP_cons, Event.isSaveOfCamera, h]

theorem grabImage_saveOfCamera_at (ss : List String) (k i : Nat) (c : Camera)
    (hok : imageCallsOk c k = true) (hc : imageComplete c k = true) :
    ((grabImage ss k i c).2).countP (Event.isSaveOfCamera i) = 1 := by
  unfold imageCallsOk at hok
  unfold imageComplete at hc
  unfold grabImage
  cases hn : c.nextImage k with
  | none => simp [hn] at hok
  | some img =>
    simp only [hn, Bool.and_eq_true, Bool.not_eq_true'] at hok hc
    obtain ⟨⟨h1, h2⟩, h3⟩ := hok
    simp [h1, h2, h3, hc, List.countP_cons, Event.isSaveOfCamera]

theorem grabImage_namedBy (ss : List String) (k i : Nat) (c : Camera) :
    ∀ e ∈ (grabImage ss k i c).2, e.namedBy ss = true := by
  unfold grabImage
  split
  · simp [Event.namedBy]
  · split
    · split <;> simp [Event.namedBy]
    · split
      · simp [Event.namedBy]
      · split
        · simp [Event.namedBy]
        · split <;> simp [Event.namedBy]

theorem grabCameras_namedBy (ss : List String) (k i : Nat) (l : CameraList) (r : Int) :
    ∀ e ∈ (grabCameras ss k i l r).2, e.namedBy ss = true := by
  induction l generalizing i r with
  | nil => simp [grabCameras]
  | cons c rest ih =>
    unfold grabCameras
    dsimp only
    intro e he
    rcases List.mem_append.mp he with h | h
    · exact grabImage_namedBy ss k i c e h
    · exact ih _ _ e h

theorem grabImages_namedBy (ss : List String) (l : CameraList) (n k : Nat) (r : Int) :
    ∀ e ∈ (grabImages ss l n k r).2, e.namedBy ss = true := by
  induction n generalizing k r with
  | zero => simp [grabImages]
  | succ n ih =>
    unfold grabImages
    dsimp only
    intro e he
    rcases List.mem_cons.mp he with h | h
    · subst h; rfl
    · rcases List.mem_append.mp h with h | h
      · exact grabCameras_namedBy ss k 0 l r e h
      · exact ih _ _ e h

/-- The file names of one camera differ from round to round. -/
theorem filename_injective (ss : List String) (i k k1 : Nat) (hk : k < 10) (hk1 : k1 < 10)
    (h : filename ss i k = filename ss i k1) : k = k1 := by
  unfold filename at h
  have h2 := congrArg String.data h
  simp only [String.data_append, List.append_assoc] at h2
  have h3 := List.append_cancel_left h2
  have h4 := List.append_cancel_left h3
  have h5 := List.append_cancel_left h4
  interval_cases k <;> interval_cases k1 <;> first | rfl | (exact absurd h5 (by decide))

/-- With no call of the preparation and the end loop throwing, the trace
starts with the serial numbers gathered by the preparation loop. -/
theorem AcquireImages_trace_serials (camList : CameraList)
    (hprep : ∀ c ∈ camList, prepReady c = true)
    (hend : ∀ c ∈ camList, c.endThrows = false) :
    (AcquireImages camList).2.2 =
      (List.range' 0 camList.length).map Event.BeginAcquisition ++
      (grabImages (prepareCameras 0 camList).2.2.1 camList k_numImages 0 0).2 ++
      (List.range' 0 camList.length).map Event.EndAcquisition := by
  have hp := prepareCameras_ok 0 camList hprep
  have hf := prepareCameras_fields 0 camList
  have he := endAcquisitions_ok 0 camList hend
  rw [← endAcquisitions_congr 0 _ _ hf.2] at he
  unfold AcquireImages
  simp only [hp.1, he.1, if_true, hp.2, he.2]
  rw [grabImages_congr _ _ _ _ _ _ hf.1]

theorem AcquireImages_countP (camList : CameraList)
    (hprep : ∀ c ∈ camList, prepReady c = true)
    (hend : ∀ c ∈ camList, c.endThrows = false)
    (p : Event → Bool) (hb : ∀ j, p (Event.BeginAcquisition j) = false)
    (he : ∀ j, p (Event.EndAcquisition j) = false) :
    (AcquireImages camList).2.2.countP p =
      ((grabImages (prepareCameras 0 camList).2.2.1 camList k_numImages 0 0).2).countP p := by
  rw [AcquireImages_trace_serials camList hprep hend, List.countP_append, List.countP_append,
    countP_map_eq_zero p _ _ hb, countP_map_eq_zero p _ _ he]
  simp

/-- C7: for every camera list on which the acquisition-mode setup succeeds
and no vendor call throws, `GetNextImage` is called exactly once per camera
and image counter 0..9 (so `10 * n` times in all), every retrieved image is
converted and saved exactly once when it is complete and not at all when it
is incomplete, and with every image complete each camera has exactly 10 `Save`
calls; the `Save` calls carry the file names of lines 659-669, which differ
from round to round for one camera. -/
theorem AcquireImages_ten_images (camList : CameraList)
    (hprep : ∀ c ∈ camList, prepReady c = true)
    (himg : ∀ c ∈ camList, ∀ k, k < k_numImages → imageCallsOk c k = true)
    (hend : ∀ c ∈ camList, c.endThrows = false) :
    (∀ i k, (AcquireImages camList).2.2.count (Event.GetNextImage i k) =
      if i < camList.length ∧ k < 10 then 1 else 0) ∧
    (AcquireImages camList).2.2.countP Event.isGetNextImage = 10 * camList.length ∧
    (∀ i c k, camList[i]? = some c → k < 10 →
      (AcquireImages camList).2.2.count (Event.Convert i k) =
        (if imageComplete c k = true then 1 else 0) ∧
      (AcquireImages camList).2.2.countP (Event.isSaveOf i k) =
        (if imageComplete c k = true then 1 else 0)) ∧
    ((∀ c ∈ camList, ∀ k, k < k_numImages → imageComplete c k = true) →
      ∀ i, i < camList.length →
        (AcquireImages camList).2.2.countP (Event.isSaveOfCamera i) = 10) ∧
    (∀ e ∈ (AcquireImages camList).2.2, e.namedBy (prepareCameras 0 camList).2.2.1 = true) ∧
    (∀ ss i k k1, k < 10 → k1 < 10 → filename ss i k = filename ss i k1 → k = k1) := by
  refine ⟨?_, ?_, ?_, ?_, ?_, fun ss i k k1 => filename_injective ss i k k1⟩
  · intro i k
    rw [List.count_eq_countP, AcquireImages_countP camList hprep hend _ (fun _ => rfl)
      (fun _ => rfl), grabImages_countP_at _ rfl _ _ i k]
    · by_cases hi : i < camList.length
      · rw [List.getElem?_eq_getElem hi]
        have := grabImage_count_getNextImage (prepareCameras 0 camList).2.2.1 k i camList[i] i k
        rw [List.count_eq_countP] at this
        simp only [this, k_numImages, hi, true_and, and_self, if_true]
      · rw [List.getElem?_eq_none (Nat.le_of_not_lt hi)]
        simp [hi]
    · intro k1 j c hne
      have := grabImage_count_getNextImage (prepareCameras 0 camList).2.2.1 k1 j c i k
      rw [List.count_eq_countP] at this
      rw [this, if_neg]
      intro e; rcases hne with h | h
      · exact h e.1
      · exact h e.2
  · rw [AcquireImages_countP camList hprep hend _ (fun _ => rfl) (fun _ => rfl),
      grabImages_countP_rounds _ rfl _ _ camList.length]
    · rfl
    · intro j _ _
      exact grabCameras_getNextImage _ _ _ _ _
  · intro i c k hc hk
    have hmem : c ∈ camList := List.getElem?_mem hc
    have hok := himg c hmem k hk
    constructor
    · rw [List.count_eq_countP, AcquireImages_countP camList hprep hend _ (fun _ => rfl)
        (fun _ => rfl), grabImages_countP_at _ rfl _ _ i k
          (fun k1 j c1 hne => (grabImage_convert_zero _ k1 j c1 i k hne).1), hc]
      simp only [k_numImages, hk, if_true]
      exact (grabImage_convert_at _ k i c hok).1
    · rw [AcquireImages_countP camList hprep hend _ (fun _ => rfl)
        (fun _ => rfl), grabImages_countP_at _ rfl _ _ i k
          (fun k1 j c1 hne => (grabImage_convert_zero _ k1 j c1 i k hne).2), hc]
      simp only [k_numImages, hk, if_true]
      exact (grabImage_convert_at _ k i c hok).2
  · intro hall i hi
    rw [AcquireImages_countP camList hprep hend _ (fun _ => rfl) (fun _ => rfl),
      grabImages_countP_rounds _ rfl _ _ 1]
    · rfl
    · intro j _ hj
      rw [grabCameras_countP_single _ _ j i
        (fun j1 c1 hne => grabImage_saveOfCamera_zero _ j j1 c1 i hne)]
      have hmem : camList[i] ∈ camList := List.getElem_mem hi
      simp only [Nat.zero_le, if_true, Nat.sub_zero, List.getElem?_eq_getElem hi]
      exact grabImage_saveOfCamera_at _ j i _ (himg _ hmem j (by omega)) (hall _ hmem j (by omega))
  · intro e he
    rw [AcquireImages_trace_serials camList hprep hend] at he
    rcases List.mem_append.mp he with h | h
    · rcases List.mem_append.mp h with h | h
      · obtain ⟨j, _, rfl⟩ := List.mem_map.mp h
        rfl
      · exact grabImages_namedBy _ _ _ _ _ e h
    · obtain ⟨j, _, rfl⟩ := List.mem_map.mp h
      rfl

theorem AcquireImages_ten_images_witness :
    (∀ c ∈ twoCameras, prepReady c = true) ∧
    (∀ c ∈ twoCameras, ∀ k, k < k_numImages → imageCallsOk c k = true) ∧
    (∀ c ∈ twoCameras, c.endThrows = false) ∧
    (AcquireImages twoCameras).2.2.countP Event.isGetNextImage = 10 * twoCameras.length ∧
    (AcquireImages twoCameras).2.2.countP (Event.isSaveOfCamera 1) = 10 :=
  ⟨by decide, by decide, by decide,
    (AcquireImages_ten_images twoCameras (by decide) (by decide) (by decide)).2.1,
    (AcquireImages_ten_images twoCameras (by decide) (by decide) (by decide)).2.2.2.1
      (by decide) 1 (by decide)⟩

/-! ## Ending acquisition -/

theorem count_map_EndAcquisition (n s i : Nat) :
    ((List.range' s n).map Event.EndAcquisition).count (Event.EndAcquisition i) =
      if s ≤ i ∧ i < s + n then 1 else 0 := by
  induction n generalizing s with
  | zero =>
    have h0 : ¬ (s ≤ i ∧ i < s + 0) := by omega
    rw [if_neg h0]
    rfl
  | succ n ih =>
    rw [List.range'_succ, List.map_cons, List.count_cons, ih]
    by_cases h : s = i
    · subst h
      have h1 : ¬ (s + 1 ≤ s ∧ s < s + 1 + n) := by omega
      have h2 : s ≤ s ∧ s < s + (n + 1) := by omega
      rw [if_neg h1, if_pos h2]
      simp
    · have h3 : ¬ (Event.EndAcquisition s = Event.EndAcquisition i) := by
        intro e; injection e with e1; exact h e1
      by_cases hin : s ≤ i ∧ i < s + (n + 1)
      · have h2 : s + 1 ≤ i ∧ i < s + 1 + n := by omega
        rw [if_pos hin, if_pos h2]
        simp [h]
      · have h2 : ¬ (s + 1 ≤ i ∧ i < s + 1 + n) := by omega
        rw [if_neg hin, if_neg h2]
        simp [h]

/-- C8, as stated, fails: when the acquisition-mode guard of the second camera
fails, `AcquireImages` returns -1 having begun acquisition on the first camera
without ending it. -/
theorem unended_acquisition_counterexample :
    (AcquireImages [sampleCamera "16276718", noModeCamera]).1 = -1 ∧
    Event.BeginAcquisition 0 ∈ (AcquireImages [sampleCamera "16276718", noModeCamera]).2.2 ∧
    Event.EndAcquisition 0 ∉ (AcquireImages [sampleCamera "16276718", noModeCamera]).2.2 := by
  decide

/-- C8 (amended): for every camera list on which the preparation loop
completes (every acquisition-mode guard passes, no write and no
`BeginAcquisition` throws) and no `EndAcquisition` throws, and for every
outcome of the calls of the image loop, `BeginAcquisition` is called on every
camera of the list and `EndAcquisition` is called exactly once on every
camera on which `BeginAcquisition` was called. -/
theorem AcquireImages_ends (camList : CameraList)
    (hprep : ∀ c ∈ camList, prepReady c = true)
    (hend : ∀ c ∈ camList, c.endThrows = false) :
    (∀ i, i < camList.length → Event.BeginAcquisition i ∈ (AcquireImages camList).2.2) ∧
    (∀ i, Event.BeginAcquisition i ∈ (AcquireImages camList).2.2 →
      (AcquireImages camList).2.2.count (Event.EndAcquisition i) = 1) := by
  have htr := AcquireImages_trace_serials camList hprep hend
  constructor
  · intro i hi
    rw [htr]
    apply List.mem_append_left
    apply List.mem_append_left
    exact List.mem_map.mpr ⟨i, by simp [List.mem_range']; omega, rfl⟩
  · intro i hmem
    rw [htr] at hmem ⊢
    have hi : i < camList.length := by
      rcases List.mem_append.mp hmem with h | h
      · rcases List.mem_append.mp h with h | h
        · obtain ⟨j, hj, e⟩ := List.mem_map.mp h
          injection e with e1
          subst e1
          simp [List.mem_range'] at hj
          omega
        · exact absurd h (grabImages_no_control _ _ _ _ _ i).1
      · obtain ⟨j, _, e⟩ := List.mem_map.mp h
        cases e
    rw [List.count_append, List.count_append, count_map_EndAcquisition,
      List.count_eq_zero.mpr (grabImages_no_control _ _ _ _ _ i).2,
      List.count_eq_countP, countP_map_eq_zero _ _ _ (fun _ => rfl)]
    have h2 : 0 ≤ i ∧ i < 0 + camList.length := by omega
    rw [if_pos h2]

theorem AcquireImages_ends_witness :
    (∀ c ∈ twoCameras, prepReady c = true) ∧
    (∀ c ∈ twoCameras, c.endThrows = false) ∧
    Event.BeginAcquisition 1 ∈ (AcquireImages twoCameras).2.2 ∧
    (AcquireImages twoCameras).2.2.count (Event.EndAcquisition 1) = 1 :=
  ⟨by decide, by decide, by decide,
    (AcquireImages_ends twoCameras (by decide) (by decide)).2 1 (by decide)⟩

/-! ## `ResetTrigger` -/

/-- C6: for every camera list, if `ResetTrigger` returns 0 then the list keeps
its length and the `TriggerMode` node of every camera in it holds the value of
its `Off` entry afterwards, whatever it held before (in particular `On`). -/
theorem ResetTrigger_off (camList : CameraList) (h : (ResetTrigger camList).1 = 0) :
    (ResetTrigger camList).2.length = camList.length ∧
    ∀ c ∈ (ResetTrigger camList).2, enumIsEntry c.nodeMap "TriggerMode" "Off" = true := by
  induction camList with
  | nil => exact ⟨rfl, fun c hc => by simp [ResetTrigger] at hc⟩
  | cons pCam rest ih =>
    unfold ResetTrigger at h ⊢
    dsimp only at h ⊢
    split
    next hc => simp [hc] at h
    next hc =>
      simp only [hc] at h
      split
      next hc2 => simp [hc2] at h
      next hc2 =>
        simp only [hc2] at h
        split
        next hw => simp [hw] at h
        next nodeMap1 hw =>
          simp only [hw] at h
          have h1 := ih h
          refine ⟨by simp [h1.1], ?_⟩
          intro c hc
          rcases List.mem_cons.mp hc with e | e
          · subst e
            exact writeEntry_sets hw
          · exact h1.2 c e

theorem ResetTrigger_off_witness :
    enumIsEntry configuredCamera.nodeMap "TriggerMode" "On" = true ∧
    enumIsEntry configuredCamera.nodeMap "TriggerMode" "Off" = false ∧
    (ResetTrigger [sampleCamera "16276718", configuredCamera]).1 = 0 ∧
    (∀ c ∈ (ResetTrigger [sampleCamera "16276718", configuredCamera]).2,
      enumIsEntry c.nodeMap "TriggerMode" "Off" = true) :=
  ⟨by decide, by decide, by decide,
    (ResetTrigger_off [sampleCamera "16276718", configuredCamera] (by decide)).2⟩

/-! ## `GrabNextImageByTrigger` -/

/-- C9: with the trigger type `SOFTWARE`, `GrabNextImageByTrigger` reads one
console character; then, if the `TriggerSoftware` command node is available
and writable and executing it does not throw, it executes the command exactly
once and returns 0, and if the node is not both available and writable it
returns -1 leaving the node map as it was.  With the trigger type `HARDWARE`
it reads nothing, leaves the node map as it was and returns 0. -/
theorem GrabNextImageByTrigger_spec (nodeMap : INodeMap) :
    ((IsAvailable (nodeMap.GetCommand "TriggerSoftware") &&
        IsWritable (nodeMap.GetCommand "TriggerSoftware")) = true →
      acceptsWrite (nodeMap.GetCommand "TriggerSoftware") = true →
      (GrabNextImageByTrigger .SOFTWARE nodeMap).1 = 0 ∧
      executions (GrabNextImageByTrigger .SOFTWARE nodeMap).2.1 "TriggerSoftware" =
        executions nodeMap "TriggerSoftware" + 1 ∧
      (GrabNextImageByTrigger .SOFTWARE nodeMap).2.2 = [Event.getchar]) ∧
    ((IsAvailable (nodeMap.GetCommand "TriggerSoftware") &&
        IsWritable (nodeMap.GetCommand "TriggerSoftware")) = false →
      GrabNextImageByTrigger .SOFTWARE nodeMap = (-1, nodeMap, [Event.getchar])) ∧
    GrabNextImageByTrigger .HARDWARE nodeMap = (0, nodeMap, []) := by
  refine ⟨?_, ?_, rfl⟩
  · intro h ht
    unfold INodeMap.GetCommand at h ht
    cases hn : nodeMap.GetNode "TriggerSoftware" with
    | none => simp [hn, IsAvailable] at h
    | some node =>
      cases hk : node.kind with
      | command n =>
        simp only [hn, hk, IsAvailable, IsWritable, acceptsWrite, Bool.and_eq_true,
          Bool.not_eq_true'] at h ht
        simp [GrabNextImageByTrigger, INodeMap.GetCommand, IsAvailable, IsWritable, Execute,
          executions, hn, hk, h.1, h.2, ht]
      | enumeration _ _ => simp [hn, hk, IsAvailable] at h
      | boolean _ => simp [hn, hk, IsAvailable] at h
      | float _ _ => simp [hn, hk, IsAvailable] at h
      | string _ => simp [hn, hk, IsAvailable] at h
  · intro h
    unfold GrabNextImageByTrigger
    simp only [Bool.and_eq_false_iff] at h
    rcases h with h | h <;> simp [h]

theorem GrabNextImageByTrigger_spec_witness :
    (IsAvailable ((sampleNodeMap "16276718" 5000).GetCommand "TriggerSoftware") &&
      IsWritable ((sampleNodeMap "16276718" 5000).GetCommand "TriggerSoftware")) = true ∧
    acceptsWrite ((sampleNodeMap "16276718" 5000).GetCommand "TriggerSoftware") = true ∧
    ((GrabNextImageByTrigger .SOFTWARE (sampleNodeMap "16276718" 5000)).1 = 0 ∧
     executions (GrabNextImageByTrigger .SOFTWARE (sampleNodeMap "16276718" 5000)).2.1
        "TriggerSoftware" = executions (sampleNodeMap "16276718" 5000) "TriggerSoftware" + 1 ∧
     (GrabNextImageByTrigger .SOFTWARE (sampleNodeMap "16276718" 5000)).2.2 = [Event.getchar]) ∧
    (IsAvailable (noModeCamera.nodeMap.GetCommand "TriggerSoftware") &&
      IsWritable (noModeCamera.nodeMap.GetCommand "TriggerSoftware")) = false ∧
    (GrabNextImageByTrigger .SOFTWARE noModeCamera.nodeMap).1 = -1 :=
  ⟨by decide, by decide,
    (GrabNextImageByTrigger_spec (sampleNodeMap "16276718" 5000)).1 (by decide) (by decide),
    by decide,
    congrArg Prod.fst ((GrabNextImageByTrigger_spec noModeCamera.nodeMap).2.1 (by decide))⟩

/-! ## `main` -/

/-- C10: when the writability probe succeeds, `main` returns -1 without
calling `RunMultipleCameras` if the system reports no camera, and otherwise
calls `RunMultipleCameras` on the camera list and returns exactly its value;
on both paths the camera list is cleared exactly once, the system instance is
released exactly once, and the clearing comes first. -/
theorem main_spec (env : Env) (h : env.fopenOk = true) :
    (env.cameras.length = 0 →
      (main env).1 = -1 ∧ ∀ t, MainEvent.RunMultipleCameras t ∉ (main env).2) ∧
    (env.cameras.length ≠ 0 →
      (main env).1 = (RunMultipleCameras env.cameras).1 ∧
      MainEvent.RunMultipleCameras (RunMultipleCameras env.cameras).2.2 ∈ (main env).2) ∧
    (main env).2.count MainEvent.Clear = 1 ∧
    (main env).2.count MainEvent.ReleaseInstance = 1 ∧
    (main env).2.indexOf MainEvent.Clear < (main env).2.indexOf MainEvent.ReleaseInstance := by
  by_cases hn : env.cameras.length = 0
  · simp [main, h, hn, List.count_cons, List.indexOf_cons]
  · simp [main, h, hn, List.count_cons, List.indexOf_cons]

theorem main_spec_witness :
    (⟨true, twoCameras⟩ : Env).fopenOk = true ∧
    (main ⟨true, twoCameras⟩).1 = (RunMultipleCameras twoCameras).1 ∧
    (main ⟨true, []⟩).1 = -1 ∧
    (main ⟨true, twoCameras⟩).2.count MainEvent.Clear = 1 :=
  ⟨rfl, ((main_spec ⟨true, twoCameras⟩ rfl).2.1 (by decide)).1,
    ((main_spec ⟨true, []⟩ rfl).1 rfl).1,
    (main_spec ⟨true, twoCameras⟩ rfl).2.2.1⟩

/-! ## Order of the `GetNextImage` calls -/

theorem getNextImageCalls_append (a b : List Event) :
    getNextImageCalls (a ++ b) = getNextImageCalls a ++ getNextImageCalls b := by
  unfold getNextImageCalls
  exact List.filterMap_append a b _

theorem getNextImageCalls_map_nil (f : Nat → Event) (hf : ∀ j, getNextImageCalls [f j] = [])
    (l : List Nat) : getNextImageCalls (l.map f) = [] := by
  induction l with
  | nil => rfl
  | cons a rest ih =>
    have e : (a :: rest).map f = [f a] ++ rest.map f := rfl
    rw [e, getNextImageCalls_append, hf a, ih]
    rfl

/-- Every round of the loop body makes one `GetNextImage` call, whatever the
calls on the image do. -/
theorem grabImage_calls (ss : List String) (k i : Nat) (c : Camera) :
    getNextImageCalls (grabImage ss k i c).2 = [(k, i)] := by
  unfold grabImage
  split
  · rfl
  · split
    · split <;> rfl
    · split
      · rfl
      · split
        · rfl
        · split <;> rfl

theorem grabCameras_calls (ss : List String) (k i : Nat) (l : CameraList) (r : Int) :
    getNextImageCalls (grabCameras ss k i l r).2 =
      (List.range' i l.length).map fun j => (k, j) := by
  induction l generalizing i r with
  | nil => rfl
  | cons c rest ih =>
    unfold grabCameras
    dsimp only
    rw [getNextImageCalls_append, grabImage_calls, ih, List.length_cons, List.range'_succ,
      List.map_cons]
    rfl

theorem grabImages_calls (ss : List String) (l : CameraList) (n k : Nat) (r : Int) :
    getNextImageCalls (grabImages ss l n k r).2 =
      (List.range' k n).flatMap fun imageCnt =>
        (List.range' 0 l.length).map fun j => (imageCnt, j) := by
  induction n generalizing k r with
  | zero => rfl
  | succ n ih =>
    unfold grabImages
    dsimp only
    have e : Event.getchar :: ((grabCameras ss k 0 l r).2 ++
        (grabImages ss l n (k + 1) (grabCameras ss k 0 l r).1).2) =
        [Event.getchar] ++ ((grabCameras ss k 0 l r).2 ++
        (grabImages ss l n (k + 1) (grabCameras ss k 0 l r).1).2) := rfl
    rw [e, getNextImageCalls_append, getNextImageCalls_append, grabCameras_calls, ih,
      List.range'_succ, List.flatMap_cons]
    rfl

theorem mem_lexPairs (numImages n : Nat) (p : Nat × Nat) :
    p ∈ lexPairs numImages n ↔ p.1 < numImages ∧ p.2 < n := by
  unfold lexPairs
  simp only [List.mem_flatMap, List.mem_map, List.mem_range]
  constructor
  · rintro ⟨k, hk, i, hi, rfl⟩
    exact ⟨hk, hi⟩
  · rintro ⟨hk, hi⟩
    exact ⟨p.1, hk, p.2, hi, rfl⟩

theorem lexPairs_sorted (numImages n : Nat) :
    (lexPairs numImages n).Pairwise (fun a b => a.1 < b.1 ∨ (a.1 = b.1 ∧ a.2 < b.2)) := by
  unfold lexPairs
  rw [List.pairwise_flatMap]
  constructor
  · intro k _
    rw [List.pairwise_map]
    exact (List.pairwise_lt_range n).imp (fun h => Or.inr ⟨rfl, h⟩)
  · refine (List.pairwise_lt_range numImages).imp ?_
    intro k1 k2 hlt x hx y hy
    obtain ⟨_, _, rfl⟩ := List.mem_map.mp hx
    obtain ⟨_, _, rfl⟩ := List.mem_map.mp hy
    exact Or.inl hlt

/-- C11: for every camera list of `n` cameras on which the preparation loop
completes and no `EndAcquisition` throws (exceptions of the calls on images
are caught per image and change nothing here), the `GetNextImage` calls of
`AcquireImages`, in the order they are made, are exactly the pairs of an image
counter in 0..9 and a camera index in 0..n-1 in lexicographic order: every
such pair occurs, the list is strictly increasing, so for each image counter
every camera is read once, in index order, before any camera is read for the
next counter. -/
theorem AcquireImages_order (camList : CameraList)
    (hprep : ∀ c ∈ camList, prepReady c = true)
    (hend : ∀ c ∈ camList, c.endThrows = false) :
    getNextImageCalls (AcquireImages camList).2.2 = lexPairs 10 camList.length ∧
    (∀ p, p ∈ getNextImageCalls (AcquireImages camList).2.2 ↔
      p.1 < 10 ∧ p.2 < camList.length) ∧
    (getNextImageCalls (AcquireImages camList).2.2).Pairwise
      (fun a b => a.1 < b.1 ∨ (a.1 = b.1 ∧ a.2 < b.2)) := by
  have hcalls : getNextImageCalls (AcquireImages camList).2.2 = lexPairs 10 camList.length := by
    rw [AcquireImages_trace_serials camList hprep hend, getNextImageCalls_append,
      getNextImageCalls_append, getNextImageCalls_map_nil Event.BeginAcquisition (fun _ => rfl),
      getNextImageCalls_map_nil Event.EndAcquisition (fun _ => rfl), grabImages_calls]
    unfold lexPairs k_numImages
    rw [List.range_eq_range', List.range_eq_range']
    simp
  rw [hcalls]
  exact ⟨rfl, mem_lexPairs 10 camList.length, lexPairs_sorted 10 camList.length⟩

theorem AcquireImages_order_witness :
    (∀ c ∈ twoCameras, prepReady c = true) ∧
    (∀ c ∈ twoCameras, c.endThrows = false) ∧
    getNextImageCalls (AcquireImages twoCameras).2.2 = lexPairs 10 twoCameras.length ∧
    (lexPairs 10 twoCameras.length).take 5 = [(0, 0), (0, 1), (1, 0), (1, 1), (2, 0)] :=
  ⟨by decide, by decide, (AcquireImages_order twoCameras (by decide) (by decide)).1, by decide⟩

end CameraSync
